import Mathlib

set_option maxHeartbeats 1000000
set_option maxRecDepth 2000

/-!
Shallow embedding of the LoopnetMCP fetch pipeline
(`src/loopnet_mcp/scraper/client.py`, `src/loopnet_mcp/scraper/browser.py`,
`src/loopnet_mcp/cache.py`, `src/loopnet_mcp/config.py`).

Content blobs are modelled as `List Char`, wall-clock / monotonic time as `ℚ`.
`asyncio.sleep t` advances the clock by exactly `t`; the durations of the
outbound HTTP requests themselves are supplied by oracles (`World`), as are the
HTTP responses, the outcome of a browser-escalation fetch, and the outcome of
the warmup request.  Exceptions are modelled with `Except`.
-/

namespace LoopnetMCP

/-- Substring containment, mirroring Python's `marker in html` on strings:
true iff `marker` occurs contiguously inside `html`. -/
def containsSub (marker : List Char) : List Char → Bool
  | [] => marker.isEmpty
  | c :: rest => marker.isPrefixOf (c :: rest) || containsSub marker rest

/-- The Akamai challenge markers `_CHALLENGE_MARKERS` from `scraper/browser.py`. -/
def CHALLENGE_MARKERS : List (List Char) :=
  [String.toList "sec-if-cpt-container", String.toList "behavioral-content",
   String.toList "/akam/13/pixel_"]

/-- The length threshold `_CHALLENGE_MAX_LENGTH` from `scraper/browser.py`. -/
def CHALLENGE_MAX_LENGTH : Nat := 10000

/-- `is_challenge_page` from `scraper/browser.py`:
`if len(html) > _CHALLENGE_MAX_LENGTH: return False`
`return any(marker in html for marker in _CHALLENGE_MARKERS)`. -/
def is_challenge_page (html : List Char) : Bool :=
  if CHALLENGE_MAX_LENGTH < html.length then false
  else CHALLENGE_MARKERS.any (fun marker => containsSub marker html)

/-- The state of `TTLCache` from `cache.py`: `_store` is a Python dict, modelled
as an insertion-ordered association list with (invariantly) unique keys;
a stored pair is `(timestamp, value)`. -/
structure TTLCache where
  store : List (String × ℚ × List Char)
  ttl : ℚ
  max_entries : Nat
deriving DecidableEq

/-- `TTLCache.get` from `cache.py`.  Returns the looked-up value together with
the possibly-mutated store (an expired entry is deleted on read). -/
def TTLCache.get (c : TTLCache) (now : ℚ) (key : String) :
    Option (List Char) × TTLCache :=
  match c.store.find? (fun e => e.1 == key) with
  | some e =>
      if now - e.2.1 < c.ttl then (some e.2.2, c)
      else (none, { c with store := c.store.eraseP (fun x => x.1 == key) })
  | none => (none, c)

/-- Python's `min(store, key=lambda k: store[k][0])`: the first entry (in
iteration order) whose timestamp is minimal. -/
def oldest_entry : List (String × ℚ × List Char) → Option (String × ℚ × List Char)
  | [] => none
  | e :: rest => some (rest.foldl (fun b x => if x.2.1 < b.2.1 then x else b) e)

/-- `TTLCache._evict_oldest` from `cache.py`: delete the entry with the oldest
timestamp; a no-op on an empty store. -/
def evict_oldest (store : List (String × ℚ × List Char)) :
    List (String × ℚ × List Char) :=
  match oldest_entry store with
  | none => store
  | some e => store.eraseP (fun x => x.1 == e.1)

/-- Python dict assignment `store[key] = (ts, v)`: overwrite in place (keeping
the key's position) if present, else append. -/
def store_insert (store : List (String × ℚ × List Char)) (key : String) (ts : ℚ)
    (v : List Char) : List (String × ℚ × List Char) :=
  if store.any (fun e => e.1 == key) then
    store.map (fun e => if e.1 == key then (key, ts, v) else e)
  else store ++ [(key, ts, v)]

/-- `TTLCache.set` from `cache.py`:
`if len(store) >= max and key not in store: evict_oldest()` then
`store[key] = (time.time(), value)`. -/
def TTLCache.set (c : TTLCache) (now : ℚ) (key : String) (value : List Char) :
    TTLCache :=
  let store :=
    if c.max_entries ≤ c.store.length ∧ ¬ c.store.any (fun e => e.1 == key) then
      evict_oldest c.store
    else c.store
  { c with store := store_insert store key now value }

/-- The configuration fields of `LoopnetConfig` (config.py) that the fetch
pipeline reads, with the source defaults. -/
structure LoopnetConfig where
  request_delay_seconds : ℚ := 3
  max_retries : Nat := 3
  cache_ttl_seconds : ℚ := 300
  cache_max_entries : Nat := 500
  browser_enabled : Bool := true
  browser_challenge_wait_seconds : ℚ := 5
deriving DecidableEq

/-- The mutable state of a `LoopnetClient` that the claims are about:
the shared cache, `_last_request_time`, the `_warmed_up` flag, and the current
monotonic-clock reading. -/
structure ClientState where
  cache : TTLCache
  lastRequestTime : ℚ
  warmedUp : Bool
  clock : ℚ
deriving DecidableEq

/-- The transport-level outcome of one `client.get(url)` call in
`_fetch_with_retries`: an HTTP response with a status and a body, or a raised
`RequestsError`. -/
inductive AttemptResult
  | response (status : Nat) (text : List Char)
  | requestsError
deriving DecidableEq

/-- The exception taxonomy of `scraper/client.py` / `scraper/browser.py`.
`blocked` is `LoopnetBlockedError`, `rateLimited` is `LoopnetRateLimitError`;
`serverError`, `unexpectedStatus`, `requestFailed` and `browserDisabled` are the
four `LoopnetClientError` messages raised by `_fetch_with_retries` /
`_fetch_with_browser`; `browserFetchFailed` is `BrowserFetchError`;
`raisedNone` models `raise last_error` when no attempt ever ran. -/
inductive FetchError
  | blocked (url : String)
  | rateLimited (url : String)
  | serverError (status : Nat) (url : String)
  | unexpectedStatus (status : Nat) (url : String)
  | requestFailed (url : String)
  | browserDisabled (url : String)
  | browserFetchFailed (url : String)
  | raisedNone
deriving DecidableEq

/-- Observable side effects of one orchestrator call: the monotonic-clock times
at which primary-transport requests were dispatched, the URLs passed to the
browser escalation fetcher, the cache writes performed, the backoff sleeps
taken, and the number of warmup requests issued. -/
structure Effects where
  dispatches : List ℚ := []
  browserCalls : List String := []
  cacheWrites : List (String × List Char) := []
  backoffSleeps : List ℚ := []
  warmupRequests : Nat := 0
deriving DecidableEq

/-- The empty effect log. -/
def Effects.empty : Effects := {}

/-- Concatenation of effect logs (first call's effects first). -/
def Effects.append (a b : Effects) : Effects :=
  ⟨a.dispatches ++ b.dispatches, a.browserCalls ++ b.browserCalls,
   a.cacheWrites ++ b.cacheWrites, a.backoffSleeps ++ b.backoffSleeps,
   a.warmupRequests + b.warmupRequests⟩

instance : Append Effects := ⟨Effects.append⟩

/-- Environment oracles for one orchestrator call: the response and the duration
of the `attempt`-th primary-transport request, and the outcome and duration of a
browser-escalation fetch (`BrowserFetcher.fetch`). -/
structure World where
  responses : Nat → AttemptResult
  reqDur : Nat → ℚ
  browserResult : Except Unit (List Char)
  browserDur : ℚ

instance exceptDecEq {ε α : Type} [DecidableEq ε] [DecidableEq α] :
    DecidableEq (Except ε α) := fun a b =>
  match a, b with
  | .ok x, .ok y =>
      if h : x = y then isTrue (by simp [h]) else isFalse (by simp [h])
  | .error x, .error y =>
      if h : x = y then isTrue (by simp [h]) else isFalse (by simp [h])
  | .ok _, .error _ => isFalse (by simp)
  | .error _, .ok _ => isFalse (by simp)

/-- Result of one orchestrator call: the returned content or raised error, the
client state afterwards, and the logged effects. -/
structure FetchOut where
  result : Except FetchError (List Char)
  state : ClientState
  eff : Effects
deriving DecidableEq

/-- `LoopnetClient._enforce_rate_limit` from `scraper/client.py`:
sleep out the remainder of `request_delay_seconds` since `_last_request_time`,
then set `_last_request_time` to the (new) current time. -/
def enforce_rate_limit (cfg : LoopnetConfig) (st : ClientState) : ClientState :=
  let elapsed := st.clock - st.lastRequestTime
  let delay := cfg.request_delay_seconds - elapsed
  let st1 := if 0 < delay then { st with clock := st.clock + delay } else st
  { st1 with lastRequestTime := st1.clock }

/-- `LoopnetClient._warmup` from `scraper/client.py`: at most once per client,
GET the base URL (taking `wuDur` time, its outcome `wu` swallowed whether it is
`ok` or a raised `RequestsError`), then sleep 1 second. -/
def warmup (st : ClientState) (wu : Except Unit Unit) (wuDur : ℚ) :
    ClientState × Effects :=
  if st.warmedUp then (st, Effects.empty)
  else
    let st1 := { st with warmedUp := true }
    let st2 := { st1 with clock := st1.clock + wuDur }
    let st3 :=
      match wu with
      | .ok _ => st2
      | .error _ => st2
    ({ st3 with clock := st3.clock + 1 }, { warmupRequests := 1 })

/-- `LoopnetClient._fetch_with_browser` from `scraper/client.py`: raise if the
browser fallback is disabled; otherwise run `BrowserFetcher.fetch` (outcome and
duration from the `World`); on success cache the escalated content under `url`
and return it, on failure propagate `BrowserFetchError`. -/
def fetch_with_browser (cfg : LoopnetConfig) (w : World) (st : ClientState)
    (url : String) : FetchOut :=
  if cfg.browser_enabled = false then
    ⟨.error (.browserDisabled url), st, Effects.empty⟩
  else
    let st1 := { st with clock := st.clock + w.browserDur }
    match w.browserResult with
    | .error _ => ⟨.error (.browserFetchFailed url), st1, { browserCalls := [url] }⟩
    | .ok html =>
        ⟨.ok html, { st1 with cache := st1.cache.set st1.clock url html },
          { browserCalls := [url], cacheWrites := [(url, html)] }⟩

/-- One-attempt outcome inside the retry loop: the call terminates (`done`) or
records a retryable failure and continues (`retry`). -/
inductive StepOut
  | done (out : FetchOut)
  | retry (err : FetchError)

/-- The body of one iteration of the retry loop in
`LoopnetClient._fetch_with_retries`, after the rate-limit gate: classify the
transport outcome of attempt `attempt` exactly as the source does. -/
def attemptStep (cfg : LoopnetConfig) (w : World) (url : String) (attempt : Nat)
    (st : ClientState) : StepOut :=
  match w.responses attempt with
  | .requestsError => .retry (.requestFailed url)
  | .response status text =>
      if status = 200 then
        if is_challenge_page text then .done (fetch_with_browser cfg w st url)
        else
          .done ⟨.ok text, { st with cache := st.cache.set st.clock url text },
            { cacheWrites := [(url, text)] }⟩
      else if status = 403 then .retry (.blocked url)
      else if status = 429 then .retry (.rateLimited url)
      else if 500 ≤ status then .retry (.serverError status url)
      else .done ⟨.error (.unexpectedStatus status url), st, Effects.empty⟩

/-- The retry loop of `LoopnetClient._fetch_with_retries`:
`for attempt in range(max_retries)` is rendered with `fuel` iterations left
(`fuel = max_retries - attempt` at every call site); each iteration enforces the
rate limit, dispatches the request (taking `reqDur attempt` time), classifies
the outcome, and on a retryable failure sleeps `2 ** attempt` unless this was
the last allowed attempt; exhaustion raises the last recorded error. -/
def fetchLoop (cfg : LoopnetConfig) (w : World) (url : String) :
    Nat → Nat → Option FetchError → ClientState → FetchOut
  | _, 0, lastError, st => ⟨.error (lastError.getD .raisedNone), st, Effects.empty⟩
  | attempt, fuel+1, _, st =>
      let st1 := enforce_rate_limit cfg st
      let st2 := { st1 with clock := st1.clock + w.reqDur attempt }
      let de : Effects := { dispatches := [st1.clock] }
      match attemptStep cfg w url attempt st2 with
      | .done out => ⟨out.result, out.state, de ++ out.eff⟩
      | .retry err =>
          let backoff : List ℚ :=
            if attempt < cfg.max_retries - 1 then [(2 : ℚ) ^ attempt] else []
          let st3 := { st2 with clock := st2.clock + backoff.sum }
          let out := fetchLoop cfg w url (attempt+1) fuel (some err) st3
          ⟨out.result, out.state, de ++ { backoffSleeps := backoff } ++ out.eff⟩

/-- `LoopnetClient._fetch_with_retries` from `scraper/client.py`. -/
def fetch_with_retries (cfg : LoopnetConfig) (w : World) (st : ClientState)
    (url : String) : FetchOut :=
  fetchLoop cfg w url 0 cfg.max_retries none st

/-- `LoopnetClient.fetch` from `scraper/client.py`: cache check, warmup,
concurrency gate (trivial for the single modelled caller), double-checked cache
read, then the retry loop. -/
def fetch (cfg : LoopnetConfig) (w : World) (wu : Except Unit Unit) (wuDur : ℚ)
    (st : ClientState) (url : String) : FetchOut :=
  match st.cache.get st.clock url with
  | (some v, c) => ⟨.ok v, { st with cache := c }, Effects.empty⟩
  | (none, c) =>
      let st1 := { st with cache := c }
      let p := warmup st1 wu wuDur
      match p.1.cache.get p.1.clock url with
      | (some v, c2) => ⟨.ok v, { p.1 with cache := c2 }, p.2⟩
      | (none, c2) =>
          let st3 := { p.1 with cache := c2 }
          let out := fetch_with_retries cfg w st3 url
          ⟨out.result, out.state, p.2 ++ out.eff⟩

/-- The loop-break condition of `BrowserFetcher.fetch` from `scraper/browser.py`:
`not is_challenge_page(html) and len(html) > 1000`. -/
def goodContent (html : List Char) : Bool :=
  !is_challenge_page html && decide (1000 < html.length)

/-- The poll loop of `BrowserFetcher.fetch`: while the clock is before the
deadline, sleep 1 second, read the page content (the `i`-th call of
`page.get_content()` returns `contents i`), and stop early when the content
passes `goodContent`.  Returns the last content read, the number of polls made,
and the clock on exit.  `fuel` bounds the recursion; every call site supplies
`fuel ≥ deadline - clock`, so the guard is equivalent to the source's `while`. -/
def pollLoop (deadline : ℚ) (contents : Nat → List Char) :
    Nat → ℚ → Nat → List Char → List Char × Nat × ℚ
  | 0, clock, i, html => (html, i, clock)
  | fuel+1, clock, i, html =>
      if clock < deadline then
        let clock1 := clock + 1
        let html1 := contents i
        if goodContent html1 then (html1, i+1, clock1)
        else pollLoop deadline contents fuel clock1 (i+1) html1
      else (html, i, clock)

/-- Result of a `BrowserFetcher.fetch` call: the returned content or the raised
error, the number of polls made, and the clock on exit of the poll loop. -/
structure BrowserOut where
  result : Except FetchError (List Char)
  polls : Nat
  clockOut : ℚ
deriving DecidableEq

/-- `BrowserFetcher.fetch` from `scraper/browser.py`: set the deadline to
`now + wait`, start with `html = ""`, run the poll loop, fetch the content one
final time if the loop captured nothing (`if not html`), and raise
`BrowserFetchError` naming the URL if the final content is still a challenge
page. -/
def browser_fetch (wait : ℚ) (contents : Nat → List Char) (url : String)
    (c0 : ℚ) (fuel : Nat) : BrowserOut :=
  let deadline := c0 + wait
  let r := pollLoop deadline contents fuel c0 0 []
  let final := if r.1.length = 0 then contents r.2.1 else r.1
  if is_challenge_page final then ⟨.error (.browserFetchFailed url), r.2.1, r.2.2⟩
  else ⟨.ok final, r.2.1, r.2.2⟩

/-- A transport outcome `_fetch_with_retries` records as retryable and retries:
HTTP 403, HTTP 429, HTTP ≥ 500, or a raised `RequestsError`. -/
def isRetryable : AttemptResult → Bool
  | .response s _ => decide (s = 403) || decide (s = 429) || decide (500 ≤ s)
  | .requestsError => true

/-- A transport outcome with HTTP status 403, 429 or ≥ 500 (the statuses of
interest to the escalation claims; excludes `RequestsError`). -/
def isRetryableStatus : AttemptResult → Bool
  | .response s _ => decide (s = 403) || decide (s = 429) || decide (500 ≤ s)
  | .requestsError => false

/-- The error `_fetch_with_retries` records for a retryable transport outcome:
`LoopnetBlockedError` for 403, `LoopnetRateLimitError` for 429, and the
server-error `LoopnetClientError` otherwise. -/
def classifyRetry (url : String) : AttemptResult → FetchError
  | .response s _ =>
      if s = 403 then .blocked url
      else if s = 429 then .rateLimited url
      else .serverError s url
  | .requestsError => .requestFailed url

/-- Concrete configuration used by witnesses: delay 3 s, 1 attempt, defaults
otherwise. -/
def cfgOne : LoopnetConfig := ⟨3, 1, 300, 500, true, 5⟩

/-- Concrete environment used by witnesses: every attempt answers 200 with a
small ordinary page, all durations zero. -/
def wOne : World :=
  ⟨fun _ => .response 200 (String.toList "page one"), fun _ => 0, .ok [], 0⟩

/-- Concrete initial client state used by witnesses: empty cache, clock 0. -/
def stZero : ClientState := ⟨⟨[], 300, 500⟩, 0, false, 0⟩

/-- Concrete environment used by witnesses: every attempt answers 403. -/
def wErr : World := ⟨fun _ => .response 403 [], fun _ => 0, .ok [], 0⟩

/-! ### Basic lemmas about effect logs -/

@[simp] theorem Effects.append_dispatches (a b : Effects) :
    (a ++ b).dispatches = a.dispatches ++ b.dispatches := rfl

@[simp] theorem Effects.append_browserCalls (a b : Effects) :
    (a ++ b).browserCalls = a.browserCalls ++ b.browserCalls := rfl

@[simp] theorem Effects.append_cacheWrites (a b : Effects) :
    (a ++ b).cacheWrites = a.cacheWrites ++ b.cacheWrites := rfl

@[simp] theorem Effects.append_backoffSleeps (a b : Effects) :
    (a ++ b).backoffSleeps = a.backoffSleeps ++ b.backoffSleeps := rfl

@[simp] theorem Effects.append_warmupRequests (a b : Effects) :
    (a ++ b).warmupRequests = a.warmupRequests + b.warmupRequests := rfl

@[simp] theorem Effects.empty_dispatches : Effects.empty.dispatches = [] := rfl

@[simp] theorem Effects.empty_browserCalls : Effects.empty.browserCalls = [] := rfl

@[simp] theorem Effects.empty_cacheWrites : Effects.empty.cacheWrites = [] := rfl

@[simp] theorem Effects.empty_backoffSleeps : Effects.empty.backoffSleeps = [] := rfl

@[simp] theorem Effects.empty_warmupRequests : Effects.empty.warmupRequests = 0 := rfl

/-! ### The challenge detector -/

/-- `containsSub` agrees with mathematical contiguous-substring containment. -/
theorem containsSub_iff (m l : List Char) : containsSub m l = true ↔ m <:+: l := by
  induction l with
  | nil =>
      simp [containsSub, List.isEmpty_iff]
  | cons c rest ih =>
      simp [containsSub, List.infix_cons_iff, ih]

/-- C2, counterexample: a content string of length exactly 10,000 that contains
the marker `behavioral-content` is classified as a challenge page, although the
claim says any content of length at least 10,000 is classified as not a
challenge.  (`is_challenge_page` tests `len(html) > 10_000`, a strict
inequality, so the boundary length 10,000 is on the marker-checked side.) -/
theorem C2_counterexample :
    CHALLENGE_MAX_LENGTH ≤
      (String.toList "behavioral-content" ++ List.replicate 9982 'a').length ∧
    is_challenge_page (String.toList "behavioral-content" ++ List.replicate 9982 'a')
      = true := by
  have hlen : (String.toList "behavioral-content").length = 18 := by decide
  have hL : (String.toList "behavioral-content" ++ List.replicate 9982 'a').length
      = 10000 := by
    rw [List.length_append, hlen, List.length_replicate]
  constructor
  · rw [hL]
    norm_num [CHALLENGE_MAX_LENGTH]
  · have hm : containsSub (String.toList "behavioral-content")
        (String.toList "behavioral-content" ++ List.replicate 9982 'a') = true :=
      (containsSub_iff _ _).2 (List.prefix_append _ _).isInfix
    unfold is_challenge_page
    rw [hL, if_neg (by norm_num [CHALLENGE_MAX_LENGTH])]
    simp only [CHALLENGE_MARKERS, List.any_cons, List.any_nil, hm]
    rw [Bool.true_or, Bool.or_true]

/-- C2 (amended): `is_challenge_page` returns false for any content strictly
longer than 10,000 characters regardless of marker presence, and returns true
for any content of length at most 10,000 characters that contains at least one
known challenge marker.  (The claim's boundary is off by one: the code's length
gate is `> 10_000`, so content of length exactly 10,000 is still
marker-checked.) -/
theorem C2_challenge_threshold (html : List Char) :
    (CHALLENGE_MAX_LENGTH < html.length → is_challenge_page html = false) ∧
    (html.length ≤ CHALLENGE_MAX_LENGTH →
      (∃ m ∈ CHALLENGE_MARKERS, m <:+: html) → is_challenge_page html = true) := by
  constructor
  · intro h
    simp [is_challenge_page, h]
  · rintro h ⟨m, hm, hinf⟩
    unfold is_challenge_page
    rw [if_neg (by omega)]
    rw [List.any_eq_true]
    exact ⟨m, hm, (containsSub_iff _ _).2 hinf⟩

/-- Witness for C2: the amended theorem applied at a 10,001-character
marker-free page (not a challenge) and at a short page that is exactly the
`sec-if-cpt-container` marker (a challenge). -/
theorem C2_challenge_threshold_witness :
    is_challenge_page (List.replicate 10001 'a') = false ∧
    is_challenge_page (String.toList "sec-if-cpt-container") = true := by
  constructor
  · exact (C2_challenge_threshold _).1
      (by rw [List.length_replicate]; norm_num [CHALLENGE_MAX_LENGTH])
  · exact (C2_challenge_threshold _).2 (by decide)
      ⟨String.toList "sec-if-cpt-container", by simp [CHALLENGE_MARKERS],
        List.infix_rfl⟩

/-! ### The TTL cache -/

/-- The fold inside `oldest_entry` returns an element of the scanned list whose
timestamp is minimal. -/
theorem foldl_oldest_spec (rest : List (String × ℚ × List Char)) :
    ∀ e : String × ℚ × List Char,
      rest.foldl (fun b x => if x.2.1 < b.2.1 then x else b) e ∈ e :: rest ∧
      ∀ x ∈ e :: rest,
        (rest.foldl (fun b x => if x.2.1 < b.2.1 then x else b) e).2.1 ≤ x.2.1 := by
  induction rest with
  | nil =>
      intro e
      simp
  | cons y ys ih =>
      intro e
      by_cases hy : y.2.1 < e.2.1
      · have h := ih y
        simp only [List.foldl_cons, if_pos hy]
        constructor
        · rcases List.mem_cons.1 h.1 with h1 | h1
          · rw [h1]
            exact List.mem_cons_of_mem _ (List.mem_cons_self _ _)
          · exact List.mem_cons_of_mem _ (List.mem_cons_of_mem _ h1)
        · intro x hx
          rcases List.mem_cons.1 hx with rfl | hx1
          · exact le_trans (h.2 _ (List.mem_cons_self _ _)) (le_of_lt hy)
          · rcases List.mem_cons.1 hx1 with rfl | hx2
            · exact h.2 _ (List.mem_cons_self _ _)
            · exact h.2 _ (List.mem_cons_of_mem _ hx2)
      · have h := ih e
        simp only [List.foldl_cons, if_neg hy]
        constructor
        · rcases List.mem_cons.1 h.1 with h1 | h1
          · rw [h1]
            exact List.mem_cons_self _ _
          · exact List.mem_cons_of_mem _ (List.mem_cons_of_mem _ h1)
        · intro x hx
          rcases List.mem_cons.1 hx with rfl | hx1
          · exact h.2 _ (List.mem_cons_self _ _)
          · rcases List.mem_cons.1 hx1 with rfl | hx2
            · exact le_trans (h.2 _ (List.mem_cons_self _ _)) (le_of_not_lt hy)
            · exact h.2 _ (List.mem_cons_of_mem _ hx2)

/-- On a nonempty store, `oldest_entry` returns a member with minimal
`stored_at` timestamp. -/
theorem oldest_entry_spec (store : List (String × ℚ × List Char))
    (h : store ≠ []) :
    ∃ e, oldest_entry store = some e ∧ e ∈ store ∧ ∀ x ∈ store, e.2.1 ≤ x.2.1 := by
  cases store with
  | nil => exact absurd rfl h
  | cons a rest =>
      exact ⟨_, rfl, (foldl_oldest_spec rest a).1, (foldl_oldest_spec rest a).2⟩

/-- A store none of whose keys is `key` fails the `key in store` test. -/
theorem any_key_eq_false {store : List (String × ℚ × List Char)} {key : String}
    (h : ∀ e ∈ store, e.1 ≠ key) :
    store.any (fun e => e.1 == key) = false := by
  rw [List.any_eq_false]
  intro x hx
  simp [h x hx]

/-- C5 (amended): provided the configured maximum entry count is at least 1 and
the cache currently holds at most that many entries (the invariant every cache
reachable through the API satisfies), inserting a fresh key when the store is at
capacity evicts exactly one entry with minimal `stored_at` before inserting, and
the final size equals the configured maximum; overwriting an existing key never
evicts (it preserves the key multiset of the store).  (The unamended claim fails
for a configured maximum of 0, where no existing entry can absorb the overflow:
see the counterexample.) -/
theorem C5_evict_oldest_on_insert (c : TTLCache) (now : ℚ) (key : String)
    (value : List Char)
    (hmax : 1 ≤ c.max_entries)
    (hsize : c.store.length ≤ c.max_entries)
    (htrig : c.max_entries ≤ c.store.length)
    (hnew : ∀ e ∈ c.store, e.1 ≠ key) :
    ((c.set now key value).store.length = c.max_entries ∧
      ∃ e ∈ c.store, (∀ x ∈ c.store, e.2.1 ≤ x.2.1) ∧
        (c.set now key value).store =
          c.store.eraseP (fun x => x.1 == e.1) ++ [(key, now, value)]) ∧
    ∀ (c2 : TTLCache) (now2 : ℚ) (k2 : String) (v2 : List Char),
      (∃ x ∈ c2.store, x.1 = k2) →
      (c2.set now2 k2 v2).store.map (fun e => e.1) =
        c2.store.map (fun e => e.1) := by
  have hlen : c.store.length = c.max_entries := le_antisymm hsize htrig
  have hne : c.store ≠ [] := by
    intro h0
    rw [h0] at hlen
    simp only [List.length_nil] at hlen
    omega
  obtain ⟨e, he_eq, he_mem, he_min⟩ := oldest_entry_spec c.store hne
  have hany : c.store.any (fun x => x.1 == key) = false := any_key_eq_false hnew
  have hany2 : (c.store.eraseP (fun x => x.1 == e.1)).any
      (fun x => x.1 == key) = false :=
    any_key_eq_false (fun x hx => hnew x ((List.eraseP_sublist _).subset hx))
  have hset : (c.set now key value).store =
      c.store.eraseP (fun x => x.1 == e.1) ++ [(key, now, value)] := by
    unfold TTLCache.set evict_oldest store_insert
    rw [if_pos ⟨htrig, by simp [hany]⟩, he_eq]
    dsimp only
    rw [if_neg (by simp [hany2])]
  have herase : (c.store.eraseP (fun x => x.1 == e.1)).length =
      c.store.length - 1 :=
    List.length_eraseP_of_mem he_mem (by simp)
  refine ⟨⟨?_, e, he_mem, he_min, hset⟩, ?_⟩
  · rw [hset, List.length_append, herase]
    simp only [List.length_singleton]
    omega
  · rintro c2 now2 k2 v2 ⟨x, hx, hxk⟩
    have hin : c2.store.any (fun e => e.1 == k2) = true := by
      rw [List.any_eq_true]
      exact ⟨x, hx, by simp [hxk]⟩
    unfold TTLCache.set store_insert
    rw [if_neg (by simp [hin])]
    dsimp only
    rw [if_pos hin, List.map_map]
    apply List.map_congr_left
    intro a ha
    by_cases hak : a.1 == k2
    · have ha1 : a.1 = k2 := eq_of_beq hak
      simp [Function.comp, hak, ha1]
    · simp [Function.comp, hak]

/-- C5, counterexample: with a configured maximum of 0 entries, inserting a
fresh key into an empty cache satisfies the claim's precondition (`key` absent,
insertion would exceed the maximum, and the code's eviction branch is taken),
yet no existing entry is evicted (there is none) and the final size is 1, not
the configured maximum 0. -/
theorem C5_counterexample :
    (∀ e ∈ (⟨[], 300, 0⟩ : TTLCache).store, e.1 ≠ "k") ∧
    (⟨[], 300, 0⟩ : TTLCache).max_entries ≤ (⟨[], 300, 0⟩ : TTLCache).store.length ∧
    (TTLCache.set ⟨[], 300, 0⟩ 0 "k" (String.toList "v")).store.length = 1 ∧
    ¬ (TTLCache.set ⟨[], 300, 0⟩ 0 "k" (String.toList "v")).store.length =
        (⟨[], 300, 0⟩ : TTLCache).max_entries := by
  refine ⟨by simp, by decide, by decide, by decide⟩

/-- Witness for C5: the amended theorem applied to a one-entry cache at its
capacity of 1 receiving a fresh key. -/
theorem C5_evict_oldest_on_insert_witness :
    (((⟨[("a", 5, [])], 300, 1⟩ : TTLCache).set 7 "b" []).store.length =
        (⟨[("a", 5, [])], 300, 1⟩ : TTLCache).max_entries ∧
      ∃ e ∈ (⟨[("a", 5, [])], 300, 1⟩ : TTLCache).store,
        (∀ x ∈ (⟨[("a", 5, [])], 300, 1⟩ : TTLCache).store, e.2.1 ≤ x.2.1) ∧
        ((⟨[("a", 5, [])], 300, 1⟩ : TTLCache).set 7 "b" []).store =
          (⟨[("a", 5, [])], 300, 1⟩ : TTLCache).store.eraseP
            (fun x => x.1 == e.1) ++ [("b", 7, [])]) ∧
    ∀ (c2 : TTLCache) (now2 : ℚ) (k2 : String) (v2 : List Char),
      (∃ x ∈ c2.store, x.1 = k2) →
      (c2.set now2 k2 v2).store.map (fun e => e.1) =
        c2.store.map (fun e => e.1) :=
  C5_evict_oldest_on_insert ⟨[("a", 5, [])], 300, 1⟩ 7 "b" []
    (by decide) (by decide) (by decide) (by decide)

/-! ### The retry loop: step lemmas -/

/-- A retryable transport outcome makes the loop body record the corresponding
error and continue. -/
theorem attemptStep_retry (cfg : LoopnetConfig) (w : World) (url : String)
    (attempt : Nat) (st : ClientState)
    (h : isRetryable (w.responses attempt) = true) :
    attemptStep cfg w url attempt st =
      .retry (classifyRetry url (w.responses attempt)) := by
  unfold attemptStep classifyRetry
  cases hresp : w.responses attempt with
  | requestsError => rfl
  | response s t =>
      rw [hresp] at h
      unfold isRetryable at h
      simp only [Bool.or_eq_true, decide_eq_true_eq] at h
      rcases h with (h | h) | h
      · subst h
        rfl
      · subst h
        rfl
      · have h1 : s ≠ 200 := by omega
        have h2 : s ≠ 403 := by omega
        have h3 : s ≠ 429 := by omega
        simp [h1, h2, h3, h]

/-- A 200 response with non-challenge content makes the loop body cache the
content under the URL and return it. -/
theorem attemptStep_200_ok (cfg : LoopnetConfig) (w : World) (url : String)
    (attempt : Nat) (st : ClientState) (html : List Char)
    (hresp : w.responses attempt = .response 200 html)
    (hch : is_challenge_page html = false) :
    attemptStep cfg w url attempt st =
      .done ⟨.ok html, { st with cache := st.cache.set st.clock url html },
        { cacheWrites := [(url, html)] }⟩ := by
  unfold attemptStep
  rw [hresp]
  simp [hch]

/-- A 200 response with challenge content makes the loop body hand off to the
browser escalation path. -/
theorem attemptStep_200_challenge (cfg : LoopnetConfig) (w : World)
    (url : String) (attempt : Nat) (st : ClientState) (html : List Char)
    (hresp : w.responses attempt = .response 200 html)
    (hch : is_challenge_page html = true) :
    attemptStep cfg w url attempt st =
      .done (fetch_with_browser cfg w st url) := by
  unfold attemptStep
  rw [hresp]
  simp [hch]

/-- Any other non-200 status makes the loop body raise immediately. -/
theorem attemptStep_fatal (cfg : LoopnetConfig) (w : World) (url : String)
    (attempt : Nat) (st : ClientState) (s : Nat) (t : List Char)
    (hresp : w.responses attempt = .response s t)
    (h200 : s ≠ 200) (h403 : s ≠ 403) (h429 : s ≠ 429) (h500 : s < 500) :
    attemptStep cfg w url attempt st =
      .done ⟨.error (.unexpectedStatus s url), st, Effects.empty⟩ := by
  unfold attemptStep
  rw [hresp]
  have h5 : ¬ 500 ≤ s := by omega
  simp [h200, h403, h429, h5, Effects.empty]

/-- Whatever branch the loop body terminates through, it leaves
`_last_request_time` and `_warmed_up` alone, never rewinds the clock (when the
browser-fetch duration is nonnegative), dispatches nothing itself, and on an
error result it writes nothing to the cache. -/
theorem attemptStep_done_spec (cfg : LoopnetConfig) (w : World) (url : String)
    (attempt : Nat) (st : ClientState) :
    ∀ o, attemptStep cfg w url attempt st = .done o →
      o.state.lastRequestTime = st.lastRequestTime ∧
      o.state.warmedUp = st.warmedUp ∧
      (0 ≤ w.browserDur → st.clock ≤ o.state.clock) ∧
      o.eff.dispatches = [] ∧ o.eff.backoffSleeps = [] ∧
      o.eff.warmupRequests = 0 ∧
      ∀ e, o.result = .error e →
        o.eff.cacheWrites = [] ∧ o.state.cache = st.cache := by
  intro o ho
  unfold attemptStep at ho
  split at ho
  · -- requestsError: retry, contradiction
    simp at ho
  · -- response status text
    split_ifs at ho with h200 hch
    · -- 200 challenge: browser path
      simp only [StepOut.done.injEq] at ho
      subst ho
      unfold fetch_with_browser
      split_ifs with hb
      · exact ⟨rfl, rfl, fun _ => le_refl _, rfl, rfl, rfl,
          fun e _ => ⟨rfl, rfl⟩⟩
      · cases hbr : w.browserResult with
        | error u =>
            exact ⟨rfl, rfl, fun hd => le_add_of_nonneg_right hd, rfl, rfl, rfl,
              fun e _ => ⟨rfl, rfl⟩⟩
        | ok html =>
            refine ⟨rfl, rfl, fun hd => le_add_of_nonneg_right hd, rfl, rfl, rfl,
              fun e he => ?_⟩
            simp at he
    · -- 200 non-challenge: success
      simp only [StepOut.done.injEq] at ho
      subst ho
      refine ⟨rfl, rfl, fun _ => le_refl _, rfl, rfl, rfl, fun e he => ?_⟩
      simp at he
    all_goals cases ho
    exact ⟨rfl, rfl, fun _ => le_refl _, rfl, rfl, rfl, fun e _ => ⟨rfl, rfl⟩⟩

/-- Unfolding equation of the retry loop at fuel 0 (attempts exhausted). -/
theorem fetchLoop_zero (cfg : LoopnetConfig) (w : World) (url : String)
    (attempt : Nat) (le : Option FetchError) (st : ClientState) :
    fetchLoop cfg w url attempt 0 le st =
      ⟨.error (le.getD .raisedNone), st, Effects.empty⟩ := rfl

/-- Unfolding equation of the retry loop at positive fuel. -/
theorem fetchLoop_succ (cfg : LoopnetConfig) (w : World) (url : String)
    (attempt fuel : Nat) (le : Option FetchError) (st : ClientState) :
    fetchLoop cfg w url attempt (fuel+1) le st =
      (let st1 := enforce_rate_limit cfg st
       let st2 := { st1 with clock := st1.clock + w.reqDur attempt }
       let de : Effects := { dispatches := [st1.clock] }
       match attemptStep cfg w url attempt st2 with
       | .done out => ⟨out.result, out.state, de ++ out.eff⟩
       | .retry err =>
           let backoff : List ℚ :=
             if attempt < cfg.max_retries - 1 then [(2 : ℚ) ^ attempt] else []
           let st3 := { st2 with clock := st2.clock + backoff.sum }
           let out := fetchLoop cfg w url (attempt+1) fuel (some err) st3
           ⟨out.result, out.state,
             de ++ { backoffSleeps := backoff } ++ out.eff⟩) := rfl

/-- One retryable iteration of the retry loop, composed: record the error,
back off unless this was the last allowed attempt, and continue. -/
theorem fetchLoop_retry_step (cfg : LoopnetConfig) (w : World) (url : String)
    (attempt fuel : Nat) (le : Option FetchError) (st : ClientState)
    (h : isRetryable (w.responses attempt) = true) :
    fetchLoop cfg w url attempt (fuel+1) le st =
      (let st1 := enforce_rate_limit cfg st
       let st2 := { st1 with clock := st1.clock + w.reqDur attempt }
       let backoff : List ℚ :=
         if attempt < cfg.max_retries - 1 then [(2 : ℚ) ^ attempt] else []
       let st3 := { st2 with clock := st2.clock + backoff.sum }
       let out := fetchLoop cfg w url (attempt+1) fuel
         (some (classifyRetry url (w.responses attempt))) st3
       ⟨out.result, out.state,
         ({ dispatches := [st1.clock] } : Effects) ++
           ({ backoffSleeps := backoff } : Effects) ++ out.eff⟩) := by
  rw [fetchLoop_succ]
  dsimp only
  rw [attemptStep_retry cfg w url attempt _ h]

/-- Exhaustion: when every remaining attempt yields a retryable outcome, the
loop runs all of them, raises the error recorded for the last one, never
escalates, never writes to the cache, and (when entered at the top-level call
site, where `attempt + fuel = max_retries`) sleeps `2 ^ a` after every attempt
`a` except the last. -/
theorem fetchLoop_exhaust (cfg : LoopnetConfig) (w : World) (url : String) :
    ∀ (n attempt : Nat) (le : Option FetchError) (st : ClientState),
      (∀ j, j < n + 1 → isRetryable (w.responses (attempt + j)) = true) →
      (fetchLoop cfg w url attempt (n+1) le st).result =
          .error (classifyRetry url (w.responses (attempt + n))) ∧
      (fetchLoop cfg w url attempt (n+1) le st).eff.dispatches.length = n + 1 ∧
      (fetchLoop cfg w url attempt (n+1) le st).eff.browserCalls = [] ∧
      (fetchLoop cfg w url attempt (n+1) le st).eff.cacheWrites = [] ∧
      (attempt + (n+1) = cfg.max_retries →
        (fetchLoop cfg w url attempt (n+1) le st).eff.backoffSleeps =
          (List.range' attempt n).map (fun a => (2:ℚ) ^ a)) := by
  intro n
  induction n with
  | zero =>
      intro attempt le st h
      rw [fetchLoop_retry_step cfg w url attempt 0 le st (h 0 (by omega))]
      dsimp only
      rw [fetchLoop_zero]
      refine ⟨rfl, rfl, rfl, rfl, fun hmax => ?_⟩
      have hlt : ¬ attempt < cfg.max_retries - 1 := by omega
      simp [hlt, List.range']
  | succ n ih =>
      intro attempt le st h
      have h0 : isRetryable (w.responses attempt) = true := by
        have := h 0 (by omega)
        simpa using this
      rw [fetchLoop_retry_step cfg w url attempt (n+1) le st h0]
      dsimp only
      have hshift : ∀ j, j < n + 1 →
          isRetryable (w.responses (attempt + 1 + j)) = true := by
        intro j hj
        have := h (j+1) (by omega)
        rwa [show attempt + (j+1) = attempt + 1 + j by omega] at this
      obtain ⟨h1, h2, h3, h4, h5⟩ := ih (attempt+1)
        (some (classifyRetry url (w.responses attempt))) _ hshift
      refine ⟨?_, ?_, ?_, ?_, fun hmax => ?_⟩
      · rw [h1, show attempt + 1 + n = attempt + (n+1) by omega]
      · simp [h2]
      · simp [h3]
      · simp [h4]
      · have hlt : attempt < cfg.max_retries - 1 := by omega
        have hmax2 : attempt + 1 + (n + 1) = cfg.max_retries := by omega
        have h5x := h5 hmax2
        rw [if_pos hlt] at h5x
        simp only [if_pos hlt, Effects.append_backoffSleeps, h5x]
        rw [List.range'_succ]
        simp

/-- Skipping a prefix of `i` retryable attempts: the loop's result and its
escalation/cache effects are those of the loop restarted at attempt `attempt+i`
(from some intermediate state), preceded by `i` dispatches and, at the
top-level call site, by backoff sleeps `2 ^ attempt, …, 2 ^ (attempt+i-1)`. -/
theorem fetchLoop_skip (cfg : LoopnetConfig) (w : World) (url : String) :
    ∀ (i fuel attempt : Nat) (le : Option FetchError) (st : ClientState),
      i < fuel →
      (∀ j, j < i → isRetryable (w.responses (attempt + j)) = true) →
      ∃ (st' : ClientState) (le' : Option FetchError),
        (fetchLoop cfg w url attempt fuel le st).result =
          (fetchLoop cfg w url (attempt+i) (fuel-i) le' st').result ∧
        (fetchLoop cfg w url attempt fuel le st).eff.browserCalls =
          (fetchLoop cfg w url (attempt+i) (fuel-i) le' st').eff.browserCalls ∧
        (fetchLoop cfg w url attempt fuel le st).eff.cacheWrites =
          (fetchLoop cfg w url (attempt+i) (fuel-i) le' st').eff.cacheWrites ∧
        (fetchLoop cfg w url attempt fuel le st).eff.dispatches.length =
          i + (fetchLoop cfg w url (attempt+i) (fuel-i) le' st').eff.dispatches.length ∧
        (attempt + fuel = cfg.max_retries →
          (fetchLoop cfg w url attempt fuel le st).eff.backoffSleeps =
            (List.range' attempt i).map (fun a => (2:ℚ) ^ a) ++
              (fetchLoop cfg w url (attempt+i) (fuel-i) le' st').eff.backoffSleeps) := by
  intro i
  induction i with
  | zero =>
      intro fuel attempt le st _ _
      exact ⟨st, le, rfl, rfl, rfl, by simp, fun _ => by simp [List.range']⟩
  | succ i ih =>
      intro fuel attempt le st hlt h
      cases fuel with
      | zero => omega
      | succ f =>
          rw [fetchLoop_retry_step cfg w url attempt f le st (by simpa using h 0 (by omega))]
          dsimp only
          have hshift : ∀ j, j < i →
              isRetryable (w.responses (attempt + 1 + j)) = true := by
            intro j hj
            have := h (j+1) (by omega)
            rwa [show attempt + (j+1) = attempt + 1 + j by omega] at this
          obtain ⟨st', le', e1, e2, e3, e4, e5⟩ :=
            ih f (attempt+1) (some (classifyRetry url (w.responses attempt))) _
              (by omega) hshift
          have ha : attempt + 1 + i = attempt + (i + 1) := by omega
          rw [ha] at e1 e2 e3 e4 e5
          refine ⟨st', le', by simpa using e1, by simpa using e2, by simpa using e3,
            by simp [e4]; omega, fun hmax => ?_⟩
          have hlt2 : attempt < cfg.max_retries - 1 := by omega
          have hmax2 : attempt + 1 + f = cfg.max_retries := by omega
          have e5x := e5 hmax2
          rw [if_pos hlt2] at e5x
          simp only [if_pos hlt2, Effects.append_backoffSleeps, e5x]
          rw [List.range'_succ]
          simp

/-- Terminal step: a 200 non-challenge response after `i` retryable attempts
returns the content, caches it once under the URL, never escalates, and takes
`i+1` dispatches with backoffs `2^0, …, 2^(i-1)` at the top-level call site. -/
theorem fetchLoop_success_after (cfg : LoopnetConfig) (w : World) (url : String)
    (i fuel : Nat) (le : Option FetchError) (st : ClientState) (html : List Char)
    (hi : i < fuel)
    (hpre : ∀ j, j < i → isRetryable (w.responses j) = true)
    (hresp : w.responses i = .response 200 html)
    (hch : is_challenge_page html = false) :
    (fetchLoop cfg w url 0 fuel le st).result = .ok html ∧
    (fetchLoop cfg w url 0 fuel le st).eff.browserCalls = [] ∧
    (fetchLoop cfg w url 0 fuel le st).eff.cacheWrites = [(url, html)] ∧
    (fetchLoop cfg w url 0 fuel le st).eff.dispatches.length = i + 1 ∧
    (fuel = cfg.max_retries →
      (fetchLoop cfg w url 0 fuel le st).eff.backoffSleeps =
        (List.range' 0 i).map (fun a => (2:ℚ) ^ a)) := by
  obtain ⟨st', le', e1, e2, e3, e4, e5⟩ :=
    fetchLoop_skip cfg w url i fuel 0 le st hi (by simpa using hpre)
  obtain ⟨g, hg⟩ : ∃ g, fuel - i = g + 1 := ⟨fuel - i - 1, by omega⟩
  rw [hg] at e1 e2 e3 e4 e5
  rw [fetchLoop_succ] at e1 e2 e3 e4 e5
  dsimp only at e1 e2 e3 e4 e5
  rw [attemptStep_200_ok cfg w url (0+i) _ html (by simpa using hresp) hch]
    at e1 e2 e3 e4 e5
  refine ⟨by simpa using e1, by simpa using e2, by simpa using e3,
    by simp [e4], fun hmax => ?_⟩
  have := e5 (by omega)
  simpa using this

/-- Terminal step: a 200 challenge response after `i` retryable attempts, with
the browser enabled, makes exactly one escalation call with the original URL —
whether the escalation succeeds or fails.  On escalation success the escalated
content is cached once under the URL and returned; on escalation failure
`BrowserFetchError` naming the URL propagates and nothing is cached. -/
theorem fetchLoop_challenge_after (cfg : LoopnetConfig) (w : World) (url : String)
    (i fuel : Nat) (le : Option FetchError) (st : ClientState)
    (html : List Char)
    (hi : i < fuel)
    (hpre : ∀ j, j < i → isRetryable (w.responses j) = true)
    (hresp : w.responses i = .response 200 html)
    (hch : is_challenge_page html = true)
    (hen : cfg.browser_enabled = true) :
    (fetchLoop cfg w url 0 fuel le st).eff.browserCalls = [url] ∧
    (fetchLoop cfg w url 0 fuel le st).eff.dispatches.length = i + 1 ∧
    (∀ bhtml, w.browserResult = .ok bhtml →
      (fetchLoop cfg w url 0 fuel le st).result = .ok bhtml ∧
      (fetchLoop cfg w url 0 fuel le st).eff.cacheWrites = [(url, bhtml)]) ∧
    (∀ u, w.browserResult = .error u →
      (fetchLoop cfg w url 0 fuel le st).result =
        .error (.browserFetchFailed url) ∧
      (fetchLoop cfg w url 0 fuel le st).eff.cacheWrites = []) := by
  obtain ⟨st', le', e1, e2, e3, e4, _⟩ :=
    fetchLoop_skip cfg w url i fuel 0 le st hi (by simpa using hpre)
  obtain ⟨g, hg⟩ : ∃ g, fuel - i = g + 1 := ⟨fuel - i - 1, by omega⟩
  rw [hg] at e1 e2 e3 e4
  rw [fetchLoop_succ] at e1 e2 e3 e4
  dsimp only at e1 e2 e3 e4
  rw [attemptStep_200_challenge cfg w url (0+i) _ html (by simpa using hresp) hch]
    at e1 e2 e3 e4
  unfold fetch_with_browser at e1 e2 e3 e4
  rw [if_neg (by simp [hen])] at e1 e2 e3 e4
  cases hbr : w.browserResult with
  | ok bhtml0 =>
      rw [hbr] at e1 e2 e3 e4
      dsimp only at e1 e2 e3 e4
      refine ⟨by simpa using e2, by simp [e4], ?_, ?_⟩
      · intro b hb
        obtain rfl : bhtml0 = b := by simpa using hb
        exact ⟨by simpa using e1, by simpa using e3⟩
      · intro u hu
        simp at hu
  | error u0 =>
      rw [hbr] at e1 e2 e3 e4
      dsimp only at e1 e2 e3 e4
      refine ⟨by simpa using e2, by simp [e4], ?_, ?_⟩
      · intro b hb
        simp at hb
      · intro u _
        exact ⟨by simpa using e1, by simpa using e3⟩

/-- Terminal step: any other non-200 status after `i` retryable attempts raises
`LoopnetClientError` (unexpected status) immediately: `i+1` dispatches in total,
no escalation, no cache write. -/
theorem fetchLoop_fatal_after (cfg : LoopnetConfig) (w : World) (url : String)
    (i fuel : Nat) (le : Option FetchError) (st : ClientState)
    (s : Nat) (t : List Char)
    (hi : i < fuel)
    (hpre : ∀ j, j < i → isRetryable (w.responses j) = true)
    (hresp : w.responses i = .response s t)
    (h200 : s ≠ 200) (h403 : s ≠ 403) (h429 : s ≠ 429) (h500 : s < 500) :
    (fetchLoop cfg w url 0 fuel le st).result =
      .error (.unexpectedStatus s url) ∧
    (fetchLoop cfg w url 0 fuel le st).eff.browserCalls = [] ∧
    (fetchLoop cfg w url 0 fuel le st).eff.cacheWrites = [] ∧
    (fetchLoop cfg w url 0 fuel le st).eff.dispatches.length = i + 1 := by
  obtain ⟨st', le', e1, e2, e3, e4, _⟩ :=
    fetchLoop_skip cfg w url i fuel 0 le st hi (by simpa using hpre)
  obtain ⟨g, hg⟩ : ∃ g, fuel - i = g + 1 := ⟨fuel - i - 1, by omega⟩
  rw [hg] at e1 e2 e3 e4
  rw [fetchLoop_succ] at e1 e2 e3 e4
  dsimp only at e1 e2 e3 e4
  rw [attemptStep_fatal cfg w url (0+i) _ s t (by simpa using hresp)
    h200 h403 h429 h500] at e1 e2 e3 e4
  exact ⟨by simpa using e1, by simpa using e2, by simpa using e3, by simp [e4]⟩

/-- A 403/429/≥500 status is in particular a retryable outcome. -/
theorem isRetryable_of_status (r : AttemptResult)
    (h : isRetryableStatus r = true) : isRetryable r = true := by
  cases r with
  | response s t => simpa [isRetryableStatus, isRetryable] using h
  | requestsError => rfl

/-- C1: a 200 response whose content is a challenge makes exactly one
escalation (browser) call with the original URL — whether the escalation then
succeeds or fails; on escalation success the escalated content — not the
original challenge content — is both written to the cache under that URL and
returned (on failure `BrowserFetchError` propagates and nothing is cached); and
escalation is never invoked when every attempt returns 403, 429 or ≥500. -/
theorem C1_escalation (cfg : LoopnetConfig) (w : World) (st : ClientState)
    (url : String) :
    (∀ (i : Nat) (html : List Char),
      cfg.browser_enabled = true →
      i < cfg.max_retries →
      (∀ j, j < i → isRetryable (w.responses j) = true) →
      w.responses i = .response 200 html →
      is_challenge_page html = true →
      (fetch_with_retries cfg w st url).eff.browserCalls = [url] ∧
      (∀ bhtml, w.browserResult = .ok bhtml →
        (fetch_with_retries cfg w st url).result = .ok bhtml ∧
        (fetch_with_retries cfg w st url).eff.cacheWrites = [(url, bhtml)]) ∧
      (∀ u, w.browserResult = .error u →
        (fetch_with_retries cfg w st url).result =
          .error (.browserFetchFailed url) ∧
        (fetch_with_retries cfg w st url).eff.cacheWrites = [])) ∧
    ((∀ j, j < cfg.max_retries → isRetryableStatus (w.responses j) = true) →
      (fetch_with_retries cfg w st url).eff.browserCalls = []) := by
  constructor
  · intro i html hen hi hpre hresp hch
    unfold fetch_with_retries
    obtain ⟨e1, _, e3, e4⟩ := fetchLoop_challenge_after cfg w url i
      cfg.max_retries none st html hi hpre hresp hch hen
    exact ⟨e1, e3, e4⟩
  · intro hall
    unfold fetch_with_retries
    cases hmax : cfg.max_retries with
    | zero =>
        rw [fetchLoop_zero]
        rfl
    | succ n =>
        have hr : ∀ j, j < n + 1 → isRetryable (w.responses (0 + j)) = true := by
          intro j hj
          have := isRetryable_of_status _ (hall j (by omega))
          simpa using this
        exact (fetchLoop_exhaust cfg w url n 0 none st hr).2.2.1

/-- Witness for C1: one immediate 200 challenge response, browser enabled; with
a succeeding escalation the call makes exactly one browser call, returns and
caches the escalated content; with a failing escalation it still makes exactly
one browser call and raises `BrowserFetchError` naming the URL. -/
theorem C1_escalation_witness :
    ((fetch_with_retries ⟨3, 1, 300, 500, true, 5⟩
        ⟨fun _ => .response 200 (String.toList "sec-if-cpt-container"),
          fun _ => 0, .ok (String.toList "real page"), 0⟩
        ⟨⟨[], 300, 500⟩, 0, false, 0⟩ "u").eff.browserCalls = ["u"] ∧
      (fetch_with_retries ⟨3, 1, 300, 500, true, 5⟩
        ⟨fun _ => .response 200 (String.toList "sec-if-cpt-container"),
          fun _ => 0, .ok (String.toList "real page"), 0⟩
        ⟨⟨[], 300, 500⟩, 0, false, 0⟩ "u").result =
        .ok (String.toList "real page") ∧
      (fetch_with_retries ⟨3, 1, 300, 500, true, 5⟩
        ⟨fun _ => .response 200 (String.toList "sec-if-cpt-container"),
          fun _ => 0, .ok (String.toList "real page"), 0⟩
        ⟨⟨[], 300, 500⟩, 0, false, 0⟩ "u").eff.cacheWrites =
        [("u", String.toList "real page")]) ∧
    ((fetch_with_retries ⟨3, 1, 300, 500, true, 5⟩
        ⟨fun _ => .response 200 (String.toList "sec-if-cpt-container"),
          fun _ => 0, .error (), 0⟩
        ⟨⟨[], 300, 500⟩, 0, false, 0⟩ "u").eff.browserCalls = ["u"] ∧
      (fetch_with_retries ⟨3, 1, 300, 500, true, 5⟩
        ⟨fun _ => .response 200 (String.toList "sec-if-cpt-container"),
          fun _ => 0, .error (), 0⟩
        ⟨⟨[], 300, 500⟩, 0, false, 0⟩ "u").result =
        .error (.browserFetchFailed "u") ∧
      (fetch_with_retries ⟨3, 1, 300, 500, true, 5⟩
        ⟨fun _ => .response 200 (String.toList "sec-if-cpt-container"),
          fun _ => 0, .error (), 0⟩
        ⟨⟨[], 300, 500⟩, 0, false, 0⟩ "u").eff.cacheWrites = []) := by
  have hS := (C1_escalation ⟨3, 1, 300, 500, true, 5⟩
      ⟨fun _ => .response 200 (String.toList "sec-if-cpt-container"),
        fun _ => 0, .ok (String.toList "real page"), 0⟩
      ⟨⟨[], 300, 500⟩, 0, false, 0⟩ "u").1 0
      (String.toList "sec-if-cpt-container") rfl (by norm_num)
      (fun j hj => by omega) rfl (by decide)
  have hF := (C1_escalation ⟨3, 1, 300, 500, true, 5⟩
      ⟨fun _ => .response 200 (String.toList "sec-if-cpt-container"),
        fun _ => 0, .error (), 0⟩
      ⟨⟨[], 300, 500⟩, 0, false, 0⟩ "u").1 0
      (String.toList "sec-if-cpt-container") rfl (by norm_num)
      (fun j hj => by omega) rfl (by decide)
  exact ⟨⟨hS.1, (hS.2.1 _ rfl).1, (hS.2.1 _ rfl).2⟩,
    ⟨hF.1, (hF.2.2 () rfl).1, (hF.2.2 () rfl).2⟩⟩

/-- C3: with max attempts 3 and every response 403, the loop makes exactly 3
dispatches and raises `LoopnetBlockedError` carrying the URL; in general,
retryable statuses are retried up to the budget and on exhaustion raise the
error recorded for the last attempt (`LoopnetBlockedError` for 403,
`LoopnetRateLimitError` for 429, the server-error `LoopnetClientError` for
≥500), while any other non-200 status raises `LoopnetClientError` immediately
after `i+1` dispatches. -/
theorem C3_retry_taxonomy (cfg : LoopnetConfig) (w : World) (st : ClientState)
    (url : String) :
    (cfg.max_retries = 3 →
      (∀ i, i < 3 → ∃ t, w.responses i = .response 403 t) →
      (fetch_with_retries cfg w st url).result = .error (.blocked url) ∧
      (fetch_with_retries cfg w st url).eff.dispatches.length = 3) ∧
    (∀ n, cfg.max_retries = n + 1 →
      (∀ j, j < cfg.max_retries → isRetryable (w.responses j) = true) →
      (fetch_with_retries cfg w st url).result =
        .error (classifyRetry url (w.responses n)) ∧
      (fetch_with_retries cfg w st url).eff.dispatches.length =
        cfg.max_retries) ∧
    (∀ (i s : Nat) (t : List Char), i < cfg.max_retries →
      (∀ j, j < i → isRetryable (w.responses j) = true) →
      w.responses i = .response s t →
      s ≠ 200 → s ≠ 403 → s ≠ 429 → s < 500 →
      (fetch_with_retries cfg w st url).result =
        .error (.unexpectedStatus s url) ∧
      (fetch_with_retries cfg w st url).eff.dispatches.length = i + 1) := by
  refine ⟨?_, ?_, ?_⟩
  · intro hmax hall
    unfold fetch_with_retries
    rw [hmax]
    have hr : ∀ j, j < 2 + 1 → isRetryable (w.responses (0 + j)) = true := by
      intro j hj
      obtain ⟨t, ht⟩ := hall j (by omega)
      simp [ht, isRetryable]
    obtain ⟨e1, e2, _⟩ := fetchLoop_exhaust cfg w url 2 0 none st hr
    obtain ⟨t2, ht2⟩ := hall 2 (by omega)
    refine ⟨?_, e2⟩
    rw [e1]
    norm_num [ht2, classifyRetry]
  · intro n hmax hall
    unfold fetch_with_retries
    rw [hmax]
    have hr : ∀ j, j < n + 1 → isRetryable (w.responses (0 + j)) = true := by
      intro j hj
      have := hall j (by omega)
      simpa using this
    obtain ⟨e1, e2, _⟩ := fetchLoop_exhaust cfg w url n 0 none st hr
    refine ⟨?_, e2⟩
    rw [e1]
    norm_num
  · intro i s t hi hpre hresp h200 h403 h429 h500
    unfold fetch_with_retries
    obtain ⟨e1, _, _, e4⟩ := fetchLoop_fatal_after cfg w url i cfg.max_retries
      none st s t hi hpre hresp h200 h403 h429 h500
    exact ⟨e1, e4⟩

/-- Witness for C3: three 403 responses with max attempts 3. -/
theorem C3_retry_taxonomy_witness :
    (fetch_with_retries ⟨3, 3, 300, 500, true, 5⟩
        ⟨fun _ => .response 403 [], fun _ => 0, .ok [], 0⟩
        ⟨⟨[], 300, 500⟩, 0, false, 0⟩ "u").result = .error (.blocked "u") ∧
    (fetch_with_retries ⟨3, 3, 300, 500, true, 5⟩
        ⟨fun _ => .response 403 [], fun _ => 0, .ok [], 0⟩
        ⟨⟨[], 300, 500⟩, 0, false, 0⟩ "u").eff.dispatches.length = 3 :=
  (C3_retry_taxonomy _ _ _ _).1 rfl (fun _ _ => ⟨[], rfl⟩)

/-- C4: responses 429, 429, then 200 non-challenge with max attempts ≥ 3 yield
the 200 content after exactly 3 dispatches with exactly the two backoff sleeps
`2^0 = 1` and `2^1 = 2`; in general, when every attempt fails retryably, a
backoff sleep of `2^a` is taken after every attempt `a` except the final
allowed one. -/
theorem C4_backoff (cfg : LoopnetConfig) (w : World) (st : ClientState)
    (url : String) :
    (∀ (t0 t1 html : List Char), 3 ≤ cfg.max_retries →
      w.responses 0 = .response 429 t0 →
      w.responses 1 = .response 429 t1 →
      w.responses 2 = .response 200 html →
      is_challenge_page html = false →
      (fetch_with_retries cfg w st url).result = .ok html ∧
      (fetch_with_retries cfg w st url).eff.backoffSleeps = [(1:ℚ), 2] ∧
      (fetch_with_retries cfg w st url).eff.dispatches.length = 3) ∧
    (∀ n, cfg.max_retries = n + 1 →
      (∀ j, j < cfg.max_retries → isRetryable (w.responses j) = true) →
      (fetch_with_retries cfg w st url).eff.backoffSleeps =
        (List.range n).map (fun a => (2:ℚ) ^ a)) := by
  constructor
  · intro t0 t1 html hmax h0 h1 h2 hch
    have hpre : ∀ j, j < 2 → isRetryable (w.responses j) = true := by
      intro j hj
      interval_cases j
      · simp [h0, isRetryable]
      · simp [h1, isRetryable]
    unfold fetch_with_retries
    obtain ⟨e1, _, _, e4, e5⟩ := fetchLoop_success_after cfg w url 2
      cfg.max_retries none st html (by omega) hpre h2 hch
    refine ⟨e1, ?_, e4⟩
    rw [e5 rfl]
    norm_num [List.range']
  · intro n hmax hall
    unfold fetch_with_retries
    rw [hmax]
    have hr : ∀ j, j < n + 1 → isRetryable (w.responses (0 + j)) = true := by
      intro j hj
      have := hall j (by omega)
      simpa using this
    have := (fetchLoop_exhaust cfg w url n 0 none st hr).2.2.2.2 (by omega)
    rw [this, List.range_eq_range']

/-- Witness for C4: the sequence 429, 429, 200 with max attempts 3. -/
theorem C4_backoff_witness :
    (fetch_with_retries ⟨3, 3, 300, 500, true, 5⟩
        ⟨fun i => if i < 2 then .response 429 [] else
            .response 200 (String.toList "an ordinary page"),
          fun _ => 0, .ok [], 0⟩
        ⟨⟨[], 300, 500⟩, 0, false, 0⟩ "u").result =
      .ok (String.toList "an ordinary page") ∧
    (fetch_with_retries ⟨3, 3, 300, 500, true, 5⟩
        ⟨fun i => if i < 2 then .response 429 [] else
            .response 200 (String.toList "an ordinary page"),
          fun _ => 0, .ok [], 0⟩
        ⟨⟨[], 300, 500⟩, 0, false, 0⟩ "u").eff.backoffSleeps = [(1:ℚ), 2] ∧
    (fetch_with_retries ⟨3, 3, 300, 500, true, 5⟩
        ⟨fun i => if i < 2 then .response 429 [] else
            .response 200 (String.toList "an ordinary page"),
          fun _ => 0, .ok [], 0⟩
        ⟨⟨[], 300, 500⟩, 0, false, 0⟩ "u").eff.dispatches.length = 3 :=
  (C4_backoff _ _ _ _).1 [] [] (String.toList "an ordinary page")
    (by norm_num) rfl rfl rfl (by decide)

/-! ### Rate limiter, warmup, and loop frame lemmas -/

/-- The rate limiter leaves `_last_request_time` equal to the (never rewound)
clock, at least `request_delay_seconds` after the previous
`_last_request_time`; it touches neither the cache nor the warmup flag. -/
theorem enforce_rate_limit_spec (cfg : LoopnetConfig) (st : ClientState) :
    (enforce_rate_limit cfg st).lastRequestTime =
      (enforce_rate_limit cfg st).clock ∧
    st.clock ≤ (enforce_rate_limit cfg st).clock ∧
    st.lastRequestTime + cfg.request_delay_seconds ≤
      (enforce_rate_limit cfg st).clock ∧
    (enforce_rate_limit cfg st).cache = st.cache ∧
    (enforce_rate_limit cfg st).warmedUp = st.warmedUp := by
  unfold enforce_rate_limit
  dsimp only
  split_ifs with h
  · refine ⟨rfl, ?_, ?_, rfl, rfl⟩ <;>
      · show _ ≤ st.clock + (cfg.request_delay_seconds -
          (st.clock - st.lastRequestTime))
        linarith
  · push_neg at h
    exact ⟨rfl, le_refl _, by linarith, rfl, rfl⟩

/-- The result of `_warmup` does not depend on whether the warmup request
succeeds or raises `RequestsError`: the failure is swallowed. -/
theorem warmup_indep (st : ClientState) (d : ℚ) (wu wu' : Except Unit Unit) :
    warmup st wu d = warmup st wu' d := by
  unfold warmup
  split_ifs
  · rfl
  · cases wu <;> cases wu' <;> rfl

/-- Frame facts about `_warmup`: it never touches the cache or the rate-limiter
state, never rewinds the clock, performs no transport dispatch, no escalation
and no cache write, and it issues its single warmup request exactly when the
`_warmed_up` flag transitions from false to true. -/
theorem warmup_spec (st : ClientState) (wu : Except Unit Unit) (d : ℚ) :
    (warmup st wu d).1.cache = st.cache ∧
    (warmup st wu d).1.lastRequestTime = st.lastRequestTime ∧
    (0 ≤ d → st.clock ≤ (warmup st wu d).1.clock) ∧
    (warmup st wu d).2.cacheWrites = [] ∧
    (warmup st wu d).2.dispatches = [] ∧
    (warmup st wu d).2.browserCalls = [] ∧
    (warmup st wu d).2.warmupRequests + (if st.warmedUp then 1 else 0) =
      (if (warmup st wu d).1.warmedUp then 1 else 0) := by
  by_cases h : st.warmedUp
  · have hw : warmup st wu d = (st, Effects.empty) := by
      unfold warmup
      rw [if_pos h]
    rw [hw]
    exact ⟨rfl, rfl, fun _ => le_refl _, rfl, rfl, rfl, by simp [h, Effects.empty]⟩
  · have hw : warmup st wu d =
        ({ st with warmedUp := true, clock := st.clock + d + 1 },
          { warmupRequests := 1 }) := by
      unfold warmup
      rw [if_neg h]
      cases wu <;> rfl
    rw [hw]
    refine ⟨rfl, rfl, fun hd => ?_, rfl, rfl, rfl, by simp [h]⟩
    dsimp only
    linarith

/-- The retry loop preserves the `_warmed_up` flag and issues no warmup
request. -/
theorem fetchLoop_warm (cfg : LoopnetConfig) (w : World) (url : String) :
    ∀ (fuel attempt : Nat) (le : Option FetchError) (st : ClientState),
      (fetchLoop cfg w url attempt fuel le st).state.warmedUp = st.warmedUp ∧
      (fetchLoop cfg w url attempt fuel le st).eff.warmupRequests = 0 := by
  intro fuel
  induction fuel with
  | zero =>
      intro attempt le st
      rw [fetchLoop_zero]
      exact ⟨rfl, rfl⟩
  | succ fuel ih =>
      intro attempt le st
      rw [fetchLoop_succ]
      dsimp only
      cases hstep : attemptStep cfg w url attempt
          { enforce_rate_limit cfg st with
            clock := (enforce_rate_limit cfg st).clock + w.reqDur attempt } with
      | done o =>
          dsimp only
          obtain ⟨_, hw, _, _, _, hwr, _⟩ :=
            attemptStep_done_spec cfg w url attempt _ o hstep
          refine ⟨?_, by simp [hwr]⟩
          rw [hw]
          exact (enforce_rate_limit_spec cfg st).2.2.2.2
      | retry err =>
          dsimp only
          refine ⟨?_, ?_⟩
          · rw [(ih (attempt+1) (some err) _).1]
            exact (enforce_rate_limit_spec cfg st).2.2.2.2
          · simp [(ih (attempt+1) (some err) _).2]

/-- When the retry loop raises, it has performed no cache write and has left
the cache untouched. -/
theorem fetchLoop_error_cache (cfg : LoopnetConfig) (w : World) (url : String) :
    ∀ (fuel attempt : Nat) (le : Option FetchError) (st : ClientState)
      (e : FetchError),
      (fetchLoop cfg w url attempt fuel le st).result = .error e →
      (fetchLoop cfg w url attempt fuel le st).eff.cacheWrites = [] ∧
      (fetchLoop cfg w url attempt fuel le st).state.cache = st.cache := by
  intro fuel
  induction fuel with
  | zero =>
      intro attempt le st e _
      rw [fetchLoop_zero]
      exact ⟨rfl, rfl⟩
  | succ fuel ih =>
      intro attempt le st e herr
      rw [fetchLoop_succ] at herr ⊢
      dsimp only at herr ⊢
      revert herr
      cases hstep : attemptStep cfg w url attempt
          { enforce_rate_limit cfg st with
            clock := (enforce_rate_limit cfg st).clock + w.reqDur attempt } with
      | done o =>
          dsimp only
          intro herr
          obtain ⟨_, _, _, _, _, _, hcache⟩ :=
            attemptStep_done_spec cfg w url attempt _ o hstep
          obtain ⟨hw, hc⟩ := hcache e herr
          refine ⟨by simp [hw], ?_⟩
          rw [hc]
          exact (enforce_rate_limit_spec cfg st).2.2.2.1
      | retry err =>
          dsimp only
          intro herr
          obtain ⟨hw, hc⟩ := ih (attempt+1) (some err) _ e herr
          refine ⟨by simp [hw], ?_⟩
          rw [hc]
          exact (enforce_rate_limit_spec cfg st).2.2.2.1

/-! ### Cache read lemmas -/

/-- Deleting the unique entry for `key` leaves a store with no entry for
`key`. -/
theorem find?_eraseP_key_none (key : String) :
    ∀ (l : List (String × ℚ × List Char)),
      (l.map (fun x => x.1)).Nodup →
      (l.eraseP (fun x => x.1 == key)).find? (fun x => x.1 == key) = none := by
  intro l
  induction l with
  | nil => intro _; rfl
  | cons x xs ih =>
      intro hnodup
      rw [List.map_cons, List.nodup_cons] at hnodup
      by_cases hx : (x.1 == key) = true
      · simp only [List.eraseP_cons, hx, cond_true]
        rw [List.find?_eq_none]
        intro y hy hpy
        have h1 : y.1 = key := eq_of_beq hpy
        have hx1 : x.1 = key := eq_of_beq hx
        exact hnodup.1 (by rw [hx1, ← h1]; exact List.mem_map_of_mem _ hy)
      · have hx' : (x.1 == key) = false := by
          simpa using hx
        simp only [List.eraseP_cons, hx', cond_false, List.find?_cons]
        exact ih hnodup.2

/-- After a miss, the store holds no live entry for the key: re-reading the
key at any later time returns `none` and leaves the store unchanged. -/
theorem TTLCache.get_miss_stable (c : TTLCache) (now now2 : ℚ) (key : String)
    (hnodup : (c.store.map (fun x => x.1)).Nodup)
    (h : (c.get now key).1 = none) :
    (c.get now key).2.get now2 key = (none, (c.get now key).2) := by
  cases hf : c.store.find? (fun e => e.1 == key) with
  | none =>
      have hg : c.get now key = (none, c) := by
        unfold TTLCache.get
        rw [hf]
      rw [hg]
      unfold TTLCache.get
      rw [hf]
  | some ent =>
      have hstale : ¬ (now - ent.2.1 < c.ttl) := by
        intro hfresh
        have hg : (c.get now key).1 = some ent.2.2 := by
          unfold TTLCache.get
          rw [hf]
          dsimp only
          rw [if_pos hfresh]
        rw [hg] at h
        simp at h
      have hg : c.get now key =
          (none, { c with store := c.store.eraseP (fun x => x.1 == key) }) := by
        unfold TTLCache.get
        rw [hf]
        dsimp only
        rw [if_neg hstale]
      rw [hg]
      unfold TTLCache.get
      dsimp only
      rw [find?_eraseP_key_none key c.store hnodup]

/-- A key absent from the store makes `get` miss and leave the cache alone. -/
theorem TTLCache.get_absent (c : TTLCache) (now : ℚ) (key : String)
    (h : c.store.find? (fun e => e.1 == key) = none) :
    c.get now key = (none, c) := by
  unfold TTLCache.get
  rw [h]

/-- The retry loop with positive fuel always dispatches at least once. -/
theorem fetchLoop_succ_dispatches_ne_nil (cfg : LoopnetConfig) (w : World)
    (url : String) (attempt fuel : Nat) (le : Option FetchError)
    (st : ClientState) :
    (fetchLoop cfg w url attempt (fuel+1) le st).eff.dispatches ≠ [] := by
  rw [fetchLoop_succ]
  dsimp only
  cases attemptStep cfg w url attempt
      { enforce_rate_limit cfg st with
        clock := (enforce_rate_limit cfg st).clock + w.reqDur attempt } with
  | done o => simp
  | retry err => simp

/-- A fetch of a URL that is entirely absent from the cache dispatches at least
one primary-transport request (whenever at least one attempt is allowed). -/
theorem fetch_dispatches_ne_nil (cfg : LoopnetConfig) (w : World)
    (wu : Except Unit Unit) (wuDur : ℚ) (st : ClientState) (url : String)
    (hmax : 1 ≤ cfg.max_retries)
    (habs : st.cache.store.find? (fun e => e.1 == url) = none) :
    (fetch cfg w wu wuDur st url).eff.dispatches ≠ [] := by
  unfold fetch
  rw [TTLCache.get_absent st.cache st.clock url habs]
  dsimp only
  rw [(warmup_spec { st with cache := st.cache } wu wuDur).1]
  dsimp only
  rw [TTLCache.get_absent st.cache _ url habs]
  dsimp only
  unfold fetch_with_retries
  obtain ⟨n, hn⟩ : ∃ n, cfg.max_retries = n + 1 := ⟨cfg.max_retries - 1, by omega⟩
  rw [hn]
  simp only [Effects.append_dispatches,
    (warmup_spec { st with cache := st.cache } wu wuDur).2.2.2.2.1,
    List.nil_append]
  exact fetchLoop_succ_dispatches_ne_nil cfg w url 0 n none _

/-- Core of C10: an erroring fetch call performs no cache write and leaves the
cache exactly as the initial read left it. -/
theorem fetch_error_cache_spec (cfg : LoopnetConfig) (w : World)
    (wu : Except Unit Unit) (wuDur : ℚ) (st : ClientState) (url : String)
    (e : FetchError)
    (hnodup : (st.cache.store.map (fun x => x.1)).Nodup)
    (herr : (fetch cfg w wu wuDur st url).result = .error e) :
    (fetch cfg w wu wuDur st url).eff.cacheWrites = [] ∧
    (fetch cfg w wu wuDur st url).state.cache = (st.cache.get st.clock url).2 := by
  unfold fetch at herr ⊢
  cases hget : st.cache.get st.clock url with
  | mk o c =>
      rw [hget] at herr
      cases o with
      | some v =>
          dsimp only at herr
          simp at herr
      | none =>
          dsimp only at herr ⊢
          have hwc : (warmup { st with cache := c } wu wuDur).1.cache = c :=
            (warmup_spec _ wu wuDur).1
          have hmiss : c.get (warmup { st with cache := c } wu wuDur).1.clock url
              = (none, c) := by
            have h0 : (st.cache.get st.clock url).1 = none := by
              rw [hget]
            have hstab := TTLCache.get_miss_stable st.cache st.clock
              ((warmup { st with cache := c } wu wuDur).1.clock) url hnodup h0
            rw [hget] at hstab
            simpa using hstab
          rw [hwc, hmiss] at herr ⊢
          dsimp only at herr ⊢
          unfold fetch_with_retries at herr ⊢
          obtain ⟨hw, hc⟩ :=
            fetchLoop_error_cache cfg w url cfg.max_retries 0 none _ e herr
          constructor
          · simp [hw, (warmup_spec { st with cache := c } wu wuDur).2.2.2.1]
          · rw [hc]

/-- C10: a fetch call that raises (retry exhaustion, non-retryable status,
escalation failure, or escalation disabled) performs no cache write, and the
only cache mutation it may perform is the lazy purge of an already-expired
entry for the requested URL on read: the final cache is exactly the cache after
the initial read. -/
theorem C10_no_cache_write_on_error (cfg : LoopnetConfig) (w : World)
    (wu : Except Unit Unit) (wuDur : ℚ) (st : ClientState) (url : String)
    (e : FetchError)
    (hnodup : (st.cache.store.map (fun x => x.1)).Nodup)
    (herr : (fetch cfg w wu wuDur st url).result = .error e) :
    (fetch cfg w wu wuDur st url).eff.cacheWrites = [] ∧
    (fetch cfg w wu wuDur st url).state.cache = (st.cache.get st.clock url).2 :=
  fetch_error_cache_spec cfg w wu wuDur st url e hnodup herr

/-- Witness for C10: a fetch raising immediately on an unexpected 404 status
writes nothing to an initially empty cache. -/
theorem C10_no_cache_write_on_error_witness :
    (fetch ⟨3, 1, 300, 500, true, 5⟩
        ⟨fun _ => .response 404 [], fun _ => 0, .ok [], 0⟩ (.ok ()) 0
        ⟨⟨[], 300, 500⟩, 0, false, 0⟩ "u").eff.cacheWrites = [] ∧
    (fetch ⟨3, 1, 300, 500, true, 5⟩
        ⟨fun _ => .response 404 [], fun _ => 0, .ok [], 0⟩ (.ok ()) 0
        ⟨⟨[], 300, 500⟩, 0, false, 0⟩ "u").state.cache =
      ((⟨[], 300, 500⟩ : TTLCache).get 0 "u").2 :=
  C10_no_cache_write_on_error ⟨3, 1, 300, 500, true, 5⟩
    ⟨fun _ => .response 404 [], fun _ => 0, .ok [], 0⟩ (.ok ()) 0
    ⟨⟨[], 300, 500⟩, 0, false, 0⟩ "u" (.unexpectedStatus 404 "u")
    (by simp) (by decide)

/-- C6: when the cache holds a live (unexpired) entry for the URL, `fetch`
returns the cached content immediately, with the client state — including the
rate limiter's `_last_request_time`, the `_warmed_up` flag and the cache —
completely unchanged and an empty effect log: no transport dispatch, no warmup
request, no backoff, no escalation, no cache write. -/
theorem C6_cache_hit (cfg : LoopnetConfig) (w : World) (wu : Except Unit Unit)
    (wuDur : ℚ) (st : ClientState) (url : String) (ts : ℚ) (v : List Char)
    (hfind : st.cache.store.find? (fun e => e.1 == url) = some (url, ts, v))
    (hfresh : st.clock - ts < st.cache.ttl) :
    fetch cfg w wu wuDur st url = ⟨.ok v, st, Effects.empty⟩ := by
  have hg : st.cache.get st.clock url = (some v, st.cache) := by
    unfold TTLCache.get
    rw [hfind]
    dsimp only
    rw [if_pos hfresh]
  unfold fetch
  rw [hg]

/-- Witness for C6: a URL cached at time 0 read at time 1 with TTL 300. -/
theorem C6_cache_hit_witness :
    fetch ⟨3, 3, 300, 500, true, 5⟩
        ⟨fun _ => .response 403 [], fun _ => 0, .ok [], 0⟩ (.ok ()) 0
        ⟨⟨[("u", 0, String.toList "cached")], 300, 500⟩, 0, false, 1⟩ "u" =
      ⟨.ok (String.toList "cached"),
        ⟨⟨[("u", 0, String.toList "cached")], 300, 500⟩, 0, false, 1⟩,
        Effects.empty⟩ :=
  C6_cache_hit ⟨3, 3, 300, 500, true, 5⟩
    ⟨fun _ => .response 403 [], fun _ => 0, .ok [], 0⟩ (.ok ()) 0
    ⟨⟨[("u", 0, String.toList "cached")], 300, 500⟩, 0, false, 1⟩ "u" 0
    (String.toList "cached") (by decide) (by norm_num)

/-- C9: the warmup request is attempted at most once per client lifetime and
its failures are swallowed.  First conjunct: the entire outcome of `fetch`
(result, state and effects) is independent of whether the warmup request
succeeds or raises.  Second conjunct: counting the `_warmed_up` flag as 0/1,
the number of warmup requests a call issues equals the increase of the flag —
so the flag, once set (even by a failed warmup), is never cleared and no later
call can warm up again; summed over any sequence of calls this telescopes to at
most one warmup request per lifetime. -/
theorem C9_warmup_once (cfg : LoopnetConfig) (w : World)
    (wu wu' : Except Unit Unit) (wuDur : ℚ) (st : ClientState) (url : String) :
    fetch cfg w wu wuDur st url = fetch cfg w wu' wuDur st url ∧
    (fetch cfg w wu wuDur st url).eff.warmupRequests +
        (if st.warmedUp then 1 else 0) =
      (if (fetch cfg w wu wuDur st url).state.warmedUp then 1 else 0) := by
  constructor
  · unfold fetch
    cases hget : st.cache.get st.clock url with
    | mk o c =>
        cases o with
        | some v => rfl
        | none =>
            dsimp only
            rw [warmup_indep { st with cache := c } wuDur wu wu']
  · unfold fetch
    cases hget : st.cache.get st.clock url with
    | mk o c =>
        cases o with
        | some v =>
            dsimp only
            simp
        | none =>
            dsimp only
            cases hget2 : (warmup { st with cache := c } wu wuDur).1.cache.get
                (warmup { st with cache := c } wu wuDur).1.clock url with
            | mk o2 c2 =>
                have hcount :=
                  (warmup_spec { st with cache := c } wu wuDur).2.2.2.2.2.2
                cases o2 with
                | some v2 =>
                    dsimp only
                    simpa using hcount
                | none =>
                    dsimp only
                    unfold fetch_with_retries
                    rw [Effects.append_warmupRequests,
                      (fetchLoop_warm cfg w url cfg.max_retries 0 none _).2,
                      (fetchLoop_warm cfg w url cfg.max_retries 0 none _).1]
                    simpa using hcount

/-! ### Dispatch spacing -/

/-- Dispatch-spacing invariant of the retry loop: successive primary-transport
dispatches are at least `request_delay_seconds` apart; every dispatch happens
at least a full delay after the incoming `_last_request_time`, never before the
incoming clock, and never after the final `_last_request_time`; the
`_last_request_time` never decreases, never exceeds the clock on exit, and the
clock never rewinds. -/
theorem fetchLoop_dispatch_spec (cfg : LoopnetConfig) (w : World) (url : String)
    (hD : 0 ≤ cfg.request_delay_seconds)
    (hr : ∀ i, 0 ≤ w.reqDur i) (hb : 0 ≤ w.browserDur) :
    ∀ (fuel attempt : Nat) (le : Option FetchError) (st : ClientState),
      st.lastRequestTime ≤ st.clock →
      List.Chain' (fun a b => a + cfg.request_delay_seconds ≤ b)
        (fetchLoop cfg w url attempt fuel le st).eff.dispatches ∧
      (∀ t ∈ (fetchLoop cfg w url attempt fuel le st).eff.dispatches,
        st.lastRequestTime + cfg.request_delay_seconds ≤ t ∧
        st.clock ≤ t ∧
        t ≤ (fetchLoop cfg w url attempt fuel le st).state.lastRequestTime) ∧
      st.lastRequestTime ≤
        (fetchLoop cfg w url attempt fuel le st).state.lastRequestTime ∧
      (fetchLoop cfg w url attempt fuel le st).state.lastRequestTime ≤
        (fetchLoop cfg w url attempt fuel le st).state.clock ∧
      st.clock ≤ (fetchLoop cfg w url attempt fuel le st).state.clock := by
  intro fuel
  induction fuel with
  | zero =>
      intro attempt le st hinv
      rw [fetchLoop_zero]
      exact ⟨List.chain'_nil, by simp, le_refl _, hinv, le_refl _⟩
  | succ fuel ih =>
      intro attempt le st hinv
      obtain ⟨hrl1, hrl2, hrl3, _, _⟩ := enforce_rate_limit_spec cfg st
      rw [fetchLoop_succ]
      dsimp only
      cases hstep : attemptStep cfg w url attempt
          { enforce_rate_limit cfg st with
            clock := (enforce_rate_limit cfg st).clock + w.reqDur attempt } with
      | done o =>
          dsimp only
          obtain ⟨hlast, _, hclock, hdisp, _, _, _⟩ :=
            attemptStep_done_spec cfg w url attempt _ o hstep
          have hoc : (enforce_rate_limit cfg st).clock + w.reqDur attempt ≤
              o.state.clock := hclock hb
          have holast : o.state.lastRequestTime =
              (enforce_rate_limit cfg st).clock := by
            rw [hlast, ← hrl1]
          refine ⟨?_, ?_, ?_, ?_, ?_⟩
          · simp [hdisp]
          · intro t ht
            simp only [Effects.append_dispatches, hdisp, List.append_nil,
              List.mem_singleton] at ht
            subst ht
            have := hr attempt
            exact ⟨hrl3, hrl2, by rw [holast]⟩
          · rw [holast]
            linarith
          · rw [holast]
            have := hr attempt
            linarith
          · have := hr attempt
            linarith
      | retry err =>
          dsimp only
          have hbo : 0 ≤ (if attempt < cfg.max_retries - 1 then
              [(2:ℚ) ^ attempt] else []).sum := by
            split_ifs
            · simp only [List.sum_cons, List.sum_nil, add_zero]
              positivity
            · simp
          have hinv3 : ({ enforce_rate_limit cfg st with
              clock := (enforce_rate_limit cfg st).clock + w.reqDur attempt +
                (if attempt < cfg.max_retries - 1 then
                  [(2:ℚ) ^ attempt] else []).sum } : ClientState).lastRequestTime ≤
              ({ enforce_rate_limit cfg st with
              clock := (enforce_rate_limit cfg st).clock + w.reqDur attempt +
                (if attempt < cfg.max_retries - 1 then
                  [(2:ℚ) ^ attempt] else []).sum } : ClientState).clock := by
            dsimp only
            have := hr attempt
            rw [hrl1]
            linarith
          obtain ⟨c1, c2, c3, c4, c5⟩ := ih (attempt+1) (some err) _ hinv3
          refine ⟨?_, ?_, ?_, ?_, ?_⟩
          · simp only [Effects.append_dispatches, List.append_nil,
              List.singleton_append, Effects.empty_dispatches]
            rw [List.chain'_cons']
            constructor
            · intro y hy
              have hmem := List.mem_of_mem_head? hy
              have := (c2 y hmem).1
              dsimp only at this
              rw [hrl1] at this
              exact this
            · exact c1
          · intro t ht
            simp only [Effects.append_dispatches, List.append_nil,
              Effects.empty_dispatches, List.singleton_append,
              List.mem_cons] at ht
            rcases ht with rfl | ht
            · refine ⟨hrl3, hrl2, ?_⟩
              have := c3
              dsimp only at this
              rw [hrl1] at this
              exact this
            · obtain ⟨m1, m2, m3⟩ := c2 t ht
              dsimp only at m1 m2
              rw [hrl1] at m1
              have := hr attempt
              exact ⟨by linarith, by linarith, m3⟩
          · have := c3
            dsimp only at this
            rw [hrl1] at this
            linarith
          · exact c4
          · have := c5
            dsimp only at this
            have := hr attempt
            linarith

/-- Dispatch-spacing facts for a full `fetch` call (cache check, warmup and
retry loop composed). -/
theorem fetch_dispatch_spec (cfg : LoopnetConfig) (w : World)
    (wu : Except Unit Unit) (wuDur : ℚ) (st : ClientState) (url : String)
    (hD : 0 ≤ cfg.request_delay_seconds)
    (hr : ∀ i, 0 ≤ w.reqDur i) (hb : 0 ≤ w.browserDur) (hw : 0 ≤ wuDur)
    (hinv : st.lastRequestTime ≤ st.clock) :
    List.Chain' (fun a b => a + cfg.request_delay_seconds ≤ b)
      (fetch cfg w wu wuDur st url).eff.dispatches ∧
    (∀ t ∈ (fetch cfg w wu wuDur st url).eff.dispatches,
      st.lastRequestTime + cfg.request_delay_seconds ≤ t ∧
      st.clock ≤ t ∧
      t ≤ (fetch cfg w wu wuDur st url).state.lastRequestTime) ∧
    st.lastRequestTime ≤ (fetch cfg w wu wuDur st url).state.lastRequestTime ∧
    (fetch cfg w wu wuDur st url).state.lastRequestTime ≤
      (fetch cfg w wu wuDur st url).state.clock ∧
    st.clock ≤ (fetch cfg w wu wuDur st url).state.clock := by
  unfold fetch
  cases hget : st.cache.get st.clock url with
  | mk o c =>
      cases o with
      | some v =>
          exact ⟨List.chain'_nil, by simp, le_refl _, hinv, le_refl _⟩
      | none =>
          dsimp only
          obtain ⟨_, hwl, hwc, _, hwd, _, _⟩ :=
            warmup_spec { st with cache := c } wu wuDur
          have hwc' : st.clock ≤ (warmup { st with cache := c } wu wuDur).1.clock :=
            hwc hw
          cases hget2 : (warmup { st with cache := c } wu wuDur).1.cache.get
              (warmup { st with cache := c } wu wuDur).1.clock url with
          | mk o2 c2 =>
              cases o2 with
              | some v2 =>
                  dsimp only
                  rw [hwd]
                  refine ⟨List.chain'_nil, by simp, ?_, ?_, ?_⟩
                  · rw [hwl]
                  · show (warmup { st with cache := c } wu wuDur).1.lastRequestTime ≤
                      (warmup { st with cache := c } wu wuDur).1.clock
                    rw [hwl]
                    linarith
                  · exact hwc'
              | none =>
                  dsimp only
                  unfold fetch_with_retries
                  obtain ⟨c1, c2x, c3, c4, c5⟩ :=
                    fetchLoop_dispatch_spec cfg w url hD hr hb cfg.max_retries 0
                      none { (warmup { st with cache := c } wu wuDur).1 with
                        cache := c2 }
                      (by dsimp only; rw [hwl]; linarith)
                  refine ⟨?_, ?_, ?_, ?_, ?_⟩
                  · simp only [Effects.append_dispatches, hwd, List.nil_append]
                    exact c1
                  · intro t ht
                    simp only [Effects.append_dispatches, hwd,
                      List.nil_append] at ht
                    obtain ⟨m1, m2, m3⟩ := c2x t ht
                    dsimp only at m1 m2
                    rw [hwl] at m1
                    exact ⟨m1, le_trans hwc' m2, m3⟩
                  · calc st.lastRequestTime
                        = (warmup { st with cache := c } wu wuDur).1.lastRequestTime := by
                          rw [hwl]
                      _ ≤ _ := c3
                  · exact c4
                  · have := c5
                    dsimp only at this
                    linarith

/-- C8: across one client, consecutive primary-transport dispatches — within
one fetch call and across two back-to-back fetch calls — are separated by at
least the configured `request_delay_seconds`; consequently two back-to-back
fetches that each dispatch at least once take at least one full configured
delay of total elapsed time. -/
theorem C8_min_spacing (cfg : LoopnetConfig) (w1 w2 : World)
    (wu1 wu2 : Except Unit Unit) (wud1 wud2 : ℚ) (st0 : ClientState)
    (url1 url2 : String)
    (hD : 0 ≤ cfg.request_delay_seconds)
    (hr1 : ∀ i, 0 ≤ w1.reqDur i) (hb1 : 0 ≤ w1.browserDur) (hw1 : 0 ≤ wud1)
    (hr2 : ∀ i, 0 ≤ w2.reqDur i) (hb2 : 0 ≤ w2.browserDur) (hw2 : 0 ≤ wud2)
    (hinv : st0.lastRequestTime ≤ st0.clock) :
    List.Chain' (fun a b => a + cfg.request_delay_seconds ≤ b)
      ((fetch cfg w1 wu1 wud1 st0 url1).eff.dispatches ++
        (fetch cfg w2 wu2 wud2 (fetch cfg w1 wu1 wud1 st0 url1).state
          url2).eff.dispatches) ∧
    ((fetch cfg w1 wu1 wud1 st0 url1).eff.dispatches ≠ [] →
      (fetch cfg w2 wu2 wud2 (fetch cfg w1 wu1 wud1 st0 url1).state
        url2).eff.dispatches ≠ [] →
      st0.clock + cfg.request_delay_seconds ≤
        (fetch cfg w2 wu2 wud2 (fetch cfg w1 wu1 wud1 st0 url1).state
          url2).state.clock) := by
  obtain ⟨a1, a2, a3, a4, a5⟩ :=
    fetch_dispatch_spec cfg w1 wu1 wud1 st0 url1 hD hr1 hb1 hw1 hinv
  obtain ⟨b1, b2, b3, b4, b5⟩ :=
    fetch_dispatch_spec cfg w2 wu2 wud2 (fetch cfg w1 wu1 wud1 st0 url1).state
      url2 hD hr2 hb2 hw2 a4
  constructor
  · rw [List.chain'_append]
    refine ⟨a1, b1, fun x hx y hy => ?_⟩
    have hxm := List.mem_of_mem_getLast? hx
    have hym := List.mem_of_mem_head? hy
    have h1 := (a2 x hxm).2.2
    have h2 := (b2 y hym).1
    linarith
  · intro h1 h2
    obtain ⟨t1, ht1⟩ := List.exists_mem_of_ne_nil _ h1
    obtain ⟨t2, ht2⟩ := List.exists_mem_of_ne_nil _ h2
    obtain ⟨_, m2, m3⟩ := a2 t1 ht1
    obtain ⟨n1, _, n3⟩ := b2 t2 ht2
    linarith

/-- Witness for C8: two back-to-back fetches of the distinct uncached URLs "a"
and "b" with delay 3; the dispatches are 3 seconds apart and the run takes at
least 3 seconds of clock time. -/
theorem C8_min_spacing_witness :
    ((fetch cfgOne wErr (.ok ()) 0 stZero "a").eff.dispatches ≠ [] ∧
      (fetch cfgOne wErr (.ok ()) 0
        (fetch cfgOne wErr (.ok ()) 0 stZero "a").state "b").eff.dispatches ≠ []) ∧
    List.Chain' (fun a b => a + cfgOne.request_delay_seconds ≤ b)
      ((fetch cfgOne wErr (.ok ()) 0 stZero "a").eff.dispatches ++
        (fetch cfgOne wErr (.ok ()) 0
          (fetch cfgOne wErr (.ok ()) 0 stZero "a").state "b").eff.dispatches) ∧
    stZero.clock + cfgOne.request_delay_seconds ≤
      (fetch cfgOne wErr (.ok ()) 0
        (fetch cfgOne wErr (.ok ()) 0 stZero "a").state "b").state.clock := by
  have h := C8_min_spacing cfgOne wErr wErr (.ok ()) (.ok ()) 0 0 stZero "a" "b"
    (by norm_num [cfgOne]) (fun i => le_refl 0) (le_refl 0) (le_refl 0)
    (fun i => le_refl 0) (le_refl 0) (le_refl 0) (le_refl 0)
  have h1 : (fetch cfgOne wErr (.ok ()) 0 stZero "a").eff.dispatches ≠ [] :=
    fetch_dispatches_ne_nil cfgOne wErr (.ok ()) 0 stZero "a"
      (by norm_num [cfgOne]) rfl
  have herr1 : (fetch cfgOne wErr (.ok ()) 0 stZero "a").result =
      .error (.blocked "a") := by decide
  have hc1 : (fetch cfgOne wErr (.ok ()) 0 stZero "a").state.cache =
      (stZero.cache.get stZero.clock "a").2 :=
    (fetch_error_cache_spec cfgOne wErr (.ok ()) 0 stZero "a" (.blocked "a")
      (by simp [stZero]) herr1).2
  have h2 : (fetch cfgOne wErr (.ok ()) 0
      (fetch cfgOne wErr (.ok ()) 0 stZero "a").state "b").eff.dispatches ≠ [] := by
    refine fetch_dispatches_ne_nil cfgOne wErr (.ok ()) 0 _ "b"
      (by norm_num [cfgOne]) ?_
    rw [hc1]
    rfl
  exact ⟨⟨h1, h2⟩, h.1, h.2 h1 h2⟩

/-! ### The browser escalation poll loop -/

/-- Unfolding equation of the poll loop at fuel 0. -/
theorem pollLoop_zero (deadline : ℚ) (contents : Nat → List Char) (clock : ℚ)
    (i : Nat) (html : List Char) :
    pollLoop deadline contents 0 clock i html = (html, i, clock) := rfl

/-- Unfolding equation of the poll loop at positive fuel. -/
theorem pollLoop_succ (deadline : ℚ) (contents : Nat → List Char) (fuel : Nat)
    (clock : ℚ) (i : Nat) (html : List Char) :
    pollLoop deadline contents (fuel+1) clock i html =
      if clock < deadline then
        (if goodContent (contents i) then (contents i, i+1, clock+1)
         else pollLoop deadline contents fuel (clock+1) (i+1) (contents i))
      else (html, i, clock) := rfl

/-- Full characterisation of the poll loop (given enough fuel to cover the
deadline, as every call site supplies): polls are spaced exactly one second
apart (the exit clock is the entry clock plus the number of polls), every poll
but the last saw content that was still bad, the last captured content is the
last poll's, and the loop exits only by capturing good content or by reaching
the deadline. -/
theorem pollLoop_spec (deadline : ℚ) (contents : Nat → List Char) :
    ∀ (fuel : Nat) (clock : ℚ) (i : Nat) (html : List Char),
      deadline ≤ clock + (fuel : ℚ) →
      i ≤ (pollLoop deadline contents fuel clock i html).2.1 ∧
      (pollLoop deadline contents fuel clock i html).2.2 =
        clock + (((pollLoop deadline contents fuel clock i html).2.1 - i : Nat) : ℚ) ∧
      (pollLoop deadline contents fuel clock i html).1 =
        (if (pollLoop deadline contents fuel clock i html).2.1 = i then html
         else contents ((pollLoop deadline contents fuel clock i html).2.1 - 1)) ∧
      (∀ j, i ≤ j → j + 1 < (pollLoop deadline contents fuel clock i html).2.1 →
        goodContent (contents j) = false) ∧
      ((pollLoop deadline contents fuel clock i html).2.1 = i ∧
        ¬ clock < deadline ∨
        goodContent (contents
          ((pollLoop deadline contents fuel clock i html).2.1 - 1)) = true ∨
        ¬ (pollLoop deadline contents fuel clock i html).2.2 < deadline) := by
  intro fuel
  induction fuel with
  | zero =>
      intro clock i html hf
      rw [pollLoop_zero]
      refine ⟨le_refl i, by simp, by simp,
        fun j hj hj2 => by dsimp only at hj2; omega, ?_⟩
      left
      refine ⟨rfl, ?_⟩
      push_cast at hf
      intro hc
      linarith
  | succ fuel ih =>
      intro clock i html hf
      rw [pollLoop_succ]
      by_cases hc : clock < deadline
      · rw [if_pos hc]
        by_cases hg : goodContent (contents i) = true
        · rw [if_pos hg]
          refine ⟨by dsimp only; omega, by simp, ?_,
            fun j hj hj2 => by dsimp only at hj2; omega, ?_⟩
          · simp
          · right
            left
            simpa using hg
        · rw [if_neg hg]
          have hf2 : deadline ≤ clock + 1 + (fuel : ℚ) := by
            push_cast at hf
            linarith
          obtain ⟨p1, p2, p3, p4, p5⟩ := ih (clock + 1) (i+1) (contents i) hf2
          refine ⟨by omega, ?_, ?_, ?_, ?_⟩
          · rw [p2]
            have hcast : (((pollLoop deadline contents fuel (clock+1) (i+1)
                (contents i)).2.1 - i : Nat) : ℚ) =
                (((pollLoop deadline contents fuel (clock+1) (i+1)
                  (contents i)).2.1 - (i+1) : Nat) : ℚ) + 1 := by
              rw [Nat.cast_sub (by omega), Nat.cast_sub (by omega)]
              push_cast
              ring
            rw [hcast]
            ring
          · rw [p3]
            have hne : ¬ (pollLoop deadline contents fuel (clock+1) (i+1)
                (contents i)).2.1 = i := by omega
            rw [if_neg hne]
            by_cases he : (pollLoop deadline contents fuel (clock+1) (i+1)
                (contents i)).2.1 = i + 1
            · rw [if_pos he, he]
              simp
            · rw [if_neg he]
          · intro j hj hj2
            rcases Nat.eq_or_lt_of_le hj with rfl | hjlt
            · simpa using hg
            · exact p4 j (by omega) hj2
          · rcases p5 with ⟨hn, hncd⟩ | hgood | hcd
            · right
              right
              rw [p2, hn]
              simpa using hncd
            · right
              left
              exact hgood
            · right
              right
              exact hcd
      · rw [if_neg hc]
        exact ⟨le_refl i, by simp, by simp,
          fun j hj hj2 => by dsimp only at hj2; omega, Or.inl ⟨rfl, hc⟩⟩

/-- C7: per escalation fetch, the browser fetcher polls at fixed one-second
intervals (the poll loop's exit clock is its entry clock plus the number of
polls, one second each) until the page content passes the break condition (not
a challenge page and longer than 1000 characters) or the configured wait budget
elapses — no earlier poll passed the condition, and the loop exits only through
success or the deadline; on loop exit it uses the content of the final poll,
refetching once if none was captured (the captured content is empty); if the
final content still classifies as a challenge, the call returns
`BrowserFetchError` naming the URL, otherwise it returns that content — with no
further retries by this component. -/
theorem C7_escalation_poll (wait : ℚ) (contents : Nat → List Char)
    (url : String) (c0 : ℚ) (fuel : Nat) (hfuel : wait ≤ (fuel : ℚ)) :
    (browser_fetch wait contents url c0 fuel).clockOut =
      c0 + ((browser_fetch wait contents url c0 fuel).polls : ℚ) ∧
    (∀ j, j + 1 < (browser_fetch wait contents url c0 fuel).polls →
      goodContent (contents j) = false) ∧
    (goodContent (contents ((browser_fetch wait contents url c0 fuel).polls - 1))
        = true ∨
      c0 + wait ≤ (browser_fetch wait contents url c0 fuel).clockOut) ∧
    (let polled := if (browser_fetch wait contents url c0 fuel).polls = 0
        then ([] : List Char)
        else contents ((browser_fetch wait contents url c0 fuel).polls - 1)
     let final := if polled.length = 0
        then contents (browser_fetch wait contents url c0 fuel).polls
        else polled
     (browser_fetch wait contents url c0 fuel).result =
       if is_challenge_page final then .error (.browserFetchFailed url)
       else .ok final) := by
  have hdl : c0 + wait ≤ c0 + (fuel : ℚ) := by linarith
  obtain ⟨p1, p2, p3, p4, p5⟩ := pollLoop_spec (c0 + wait) contents fuel c0 0 [] hdl
  have hpolls : (browser_fetch wait contents url c0 fuel).polls =
      (pollLoop (c0 + wait) contents fuel c0 0 []).2.1 := by
    unfold browser_fetch
    dsimp only
    split_ifs <;> rfl
  have hclock : (browser_fetch wait contents url c0 fuel).clockOut =
      (pollLoop (c0 + wait) contents fuel c0 0 []).2.2 := by
    unfold browser_fetch
    dsimp only
    split_ifs <;> rfl
  have hres : (browser_fetch wait contents url c0 fuel).result =
      (if is_challenge_page
          (if (pollLoop (c0 + wait) contents fuel c0 0 []).1.length = 0
           then contents (pollLoop (c0 + wait) contents fuel c0 0 []).2.1
           else (pollLoop (c0 + wait) contents fuel c0 0 []).1)
       then .error (.browserFetchFailed url)
       else .ok (if (pollLoop (c0 + wait) contents fuel c0 0 []).1.length = 0
           then contents (pollLoop (c0 + wait) contents fuel c0 0 []).2.1
           else (pollLoop (c0 + wait) contents fuel c0 0 []).1)) := by
    unfold browser_fetch
    dsimp only
    split_ifs <;> rfl
  refine ⟨?_, ?_, ?_, ?_⟩
  · rw [hclock, hpolls, p2]
    norm_num
  · intro j hj
    rw [hpolls] at hj
    exact p4 j (by omega) hj
  · rcases p5 with ⟨hn, hncd⟩ | hgood | hcd
    · right
      rw [hclock, p2, hn]
      push_neg at hncd
      simpa using hncd
    · left
      rw [hpolls]
      exact hgood
    · right
      rw [hclock]
      exact not_lt.1 hcd
  · show (browser_fetch wait contents url c0 fuel).result = _
    rw [hres, hpolls, ← p3]

/-- Witness for C7: a 2-second wait budget and a page whose first poll already
shows a large non-challenge page; the browser fetch polls once, exits one
second in, and returns the page. -/
theorem C7_escalation_poll_witness :
    (browser_fetch 2 (fun _ => List.replicate 1001 'a') "u" 0 2).clockOut =
      0 + ((browser_fetch 2 (fun _ => List.replicate 1001 'a') "u" 0 2).polls : ℚ) ∧
    (∀ j, j + 1 < (browser_fetch 2 (fun _ => List.replicate 1001 'a') "u" 0 2).polls →
      goodContent ((fun _ => List.replicate 1001 'a') j) = false) ∧
    (goodContent ((fun _ => List.replicate 1001 'a')
        ((browser_fetch 2 (fun _ => List.replicate 1001 'a') "u" 0 2).polls - 1))
        = true ∨
      (0:ℚ) + 2 ≤
        (browser_fetch 2 (fun _ => List.replicate 1001 'a') "u" 0 2).clockOut) ∧
    (let polled := if (browser_fetch 2 (fun _ => List.replicate 1001 'a')
          "u" 0 2).polls = 0
        then ([] : List Char)
        else (fun _ => List.replicate 1001 'a')
          ((browser_fetch 2 (fun _ => List.replicate 1001 'a') "u" 0 2).polls - 1)
     let final := if polled.length = 0
        then (fun _ => List.replicate 1001 'a')
          (browser_fetch 2 (fun _ => List.replicate 1001 'a') "u" 0 2).polls
        else polled
     (browser_fetch 2 (fun _ => List.replicate 1001 'a') "u" 0 2).result =
       if is_challenge_page final then .error (.browserFetchFailed "u")
       else .ok final) :=
  C7_escalation_poll 2 (fun _ => List.replicate 1001 'a') "u" 0 2 (by norm_num)

end LoopnetMCP
